import Mathlib

/-!
Verification of the conversation-orchestration core of the interview-agent
repository: the conversation state machine (`core/conversation_state.py`),
the intent recognizer (`core/intent_recognizer.py`), the audio quality gate
inside `InterviewOrchestrator._listen_for_response`, and the turn
orchestration loop (`core/interview.py`), together with the session data
model (`models/interview.py`).

Modelling conventions:
* Python floats are modelled as exact rationals (`ℚ`); every float literal
  in the source (0.5, 0.7, 0.8, 0.9, 1.2, 2.0, 100) is an exactly
  representable quantity and no claim depends on rounding behaviour.
* Python `re` patterns used by the recognizer contain only literals,
  groups, alternation, optional groups and word boundaries, so they are
  embedded by a small backtracking matcher with exactly Python's
  leftmost-first-alternative-greedy-optional semantics.
* Exceptions are modelled with `Except`-style result types; mutation is
  modelled by explicit state passing.
-/

namespace InterviewAgent

/-! ## String helpers (Python `str.lower`, `str.strip`, `str.split`, `startswith`) -/

/-- Python `str.isspace` on the characters that occur in this code base. -/
def isSpaceChar (c : Char) : Bool :=
  c = ' ' ∨ c = '\t' ∨ c = '\n' ∨ c = '\r'

/-- Python `str.strip()` on a list of characters. -/
def pyStripL (l : List Char) : List Char :=
  ((l.dropWhile isSpaceChar).reverse.dropWhile isSpaceChar).reverse

/-- Python `str.lower()` on a list of characters (ASCII inputs). -/
def pyLowerL (l : List Char) : List Char :=
  l.map Char.toLower

/-- Python `str.strip()` on strings. -/
def pyStrip (s : String) : String :=
  (pyStripL s.toList).asString

/-- Python `str.lower()` on strings. -/
def pyLower (s : String) : String :=
  (pyLowerL s.toList).asString

/-- Accumulator worker of `pySplit`; `acc` holds the current word
reversed. -/
def pySplitGo : List Char → List Char → List (List Char)
  | [], acc => if acc = [] then [] else [acc.reverse]
  | c :: cs, acc =>
    if isSpaceChar c then
      if acc = [] then pySplitGo cs [] else acc.reverse :: pySplitGo cs []
    else pySplitGo cs (c :: acc)

/-- Python `str.split()` with no separator: split on whitespace runs,
dropping empty pieces. -/
def pySplit (l : List Char) : List (List Char) :=
  pySplitGo l []

/-! ## Regular-expression engine

The recognizer's patterns use only: literal characters, grouping,
alternation `|`, the optional operator `?` applied to a group, and the
word-boundary assertion `\b`.  No repetition operator occurs, so matching
is structurally recursive on the pattern.  Matching is case-insensitive
(the source compiles every search with `re.IGNORECASE`). -/

inductive Rx where
  | eps  : Rx
  | ch   : Char → Rx
  | seq  : Rx → Rx → Rx
  | alt  : Rx → Rx → Rx
  | opt  : Rx → Rx
  | wb   : Rx

/-- Python `\w` over the ASCII inputs of this code base. -/
def isWordChar (c : Char) : Bool :=
  c.isAlphanum ∨ c = '_'

/-- Word boundary test between the previous character (none at the string
start) and the rest of the input. -/
def atBoundary (prev : Option Char) (rest : List Char) : Bool :=
  let a := match prev with
    | none => false
    | some c => isWordChar c
  let b := match rest with
    | [] => false
    | c :: _ => isWordChar c
  a ≠ b

/-- Backtracking matcher in continuation style.  Alternation prefers the
left branch, `opt` is greedy; this is exactly Python's backtracking
order.  The continuation receives the previous character and the
remaining input. -/
def rxMatch : Rx → Option Char → List Char →
    (Option Char → List Char → Option (List Char)) → Option (List Char)
  | .eps, prev, rest, k => k prev rest
  | .ch c, _, rest, k =>
    match rest with
    | [] => none
    | x :: xs => if x.toLower = c.toLower then k (some x) xs else none
  | .seq a b, prev, rest, k => rxMatch a prev rest fun p r => rxMatch b p r k
  | .alt a b, prev, rest, k =>
    match rxMatch a prev rest k with
    | some r => some r
    | none => rxMatch b prev rest k
  | .opt a, prev, rest, k =>
    match rxMatch a prev rest k with
    | some r => some r
    | none => k prev rest
  | .wb, prev, rest, k => if atBoundary prev rest then k prev rest else none

/-- Python `re.search`: try the pattern at each start position from the
left; on the first success return the length of the match
(`len(match.group(0))`). -/
def rxSearchFrom (r : Rx) : Option Char → List Char → Option Nat
  | prev, rest =>
    match rxMatch r prev rest (fun _ rem => some rem) with
    | some rem => some (rest.length - rem.length)
    | none =>
      match rest with
      | [] => none
      | c :: cs => rxSearchFrom r (some c) cs

/-- Search a pattern in a text, returning the length of the leftmost
match if any. -/
def rxSearch (r : Rx) (text : List Char) : Option Nat :=
  rxSearchFrom r none text

/-! Pattern construction helpers. -/

/-- Literal string pattern. -/
def rstr (s : String) : Rx :=
  s.toList.foldr (fun c r => Rx.seq (Rx.ch c) r) Rx.eps

/-- n-ary alternation (left-to-right preference, as written in the
source patterns). -/
def ralts : List Rx → Rx
  | [] => Rx.eps
  | [r] => r
  | r :: rs => Rx.alt r (ralts rs)

/-- Sequence of parts. -/
def rseq : List Rx → Rx
  | [] => Rx.eps
  | [r] => r
  | r :: rs => Rx.seq r (rseq rs)

/-- `\b( ... )\b` wrapper used by every pattern in the source. -/
def bounded (r : Rx) : Rx :=
  rseq [Rx.wb, r, Rx.wb]

/-! ## User intents (`core/conversation_state.py`, `UserIntent`) -/

inductive UserIntent where
  | answer
  | repeat
  | clarify
  | skip
  | confirm_yes
  | confirm_no
  | start
  | quit
  | unknown
deriving DecidableEq

/-! ## Intent recognizer (`core/intent_recognizer.py`)

The `PATTERNS` class attribute, in dict insertion order.  Each regex of
the source is transcribed into the `Rx` syntax; `\x27` is the apostrophe
character appearing in the source patterns. -/

/-- Patterns of `UserIntent.REPEAT`. -/
def repeatPatterns : List Rx :=
  [ bounded (ralts [rstr "repeat", rstr "say that again",
      rstr "what did you say", rstr "pardon"])
  , bounded (rseq [rstr "didn\x27t ", ralts [rstr "hear", rstr "catch"],
      rstr " that"])
  , bounded (ralts [rstr "come again", rstr "one more time"]) ]

/-- Patterns of `UserIntent.CLARIFY`. -/
def clarifyPatterns : List Rx :=
  [ bounded (ralts [rstr "clarify", rstr "clarification",
      rstr "what do you mean"])
  , bounded (ralts [rstr "don\x27t understand", rstr "unclear",
      rstr "explain"])
  , bounded (rseq [rstr "can you ", ralts [rstr "elaborate", rstr "expand"]]) ]

/-- Patterns of `UserIntent.SKIP`. -/
def skipPatterns : List Rx :=
  [ bounded (ralts [rstr "skip", rstr "pass", rstr "next question"])
  , bounded (ralts [rseq [rstr "don\x27t ", ralts [rstr "know", rstr "remember"]],
      rstr "no answer"])
  , bounded (ralts [rstr "move on", rstr "skip this"]) ]

/-- Patterns of `UserIntent.CONFIRM_YES`. -/
def confirmYesPatterns : List Rx :=
  [ bounded (ralts [rstr "yes", rstr "yeah", rstr "yep", rstr "yup",
      rstr "correct", rstr "right", rstr "exactly"])
  , bounded (rseq [rstr "that\x27s ", ralts [rstr "right", rstr "correct"]])
  , bounded (ralts [rstr "sounds good", rstr "looks good"]) ]

/-- Patterns of `UserIntent.CONFIRM_NO`. -/
def confirmNoPatterns : List Rx :=
  [ bounded (ralts [rstr "no", rstr "nope", rstr "nah", rstr "incorrect",
      rstr "wrong"])
  , bounded (rseq [rstr "that\x27s ", ralts [rstr "not right", rstr "wrong",
      rstr "incorrect"]])
  , bounded (ralts [rstr "change", rstr "redo", rstr "try again"]) ]

/-- Patterns of `UserIntent.START`. -/
def startPatterns : List Rx :=
  [ bounded (ralts [rstr "start", rstr "begin", rstr "ready", rstr "let\x27s go"])
  , bounded (rseq [rstr "yes", Rx.opt (rstr ","), rstr " ",
      ralts [rstr "let\x27s", rstr "I\x27m"], rstr " ",
      ralts [rstr "start", rstr "ready"]])
  , rseq [Rx.wb, ralts [rstr "okay", rstr "ok"], Rx.opt (rstr ","), rstr " ",
      ralts [rstr "let\x27s", rstr "I\x27m"], rstr " ready", Rx.wb] ]

/-- Patterns of `UserIntent.QUIT`. -/
def quitPatterns : List Rx :=
  [ bounded (ralts [rstr "quit", rstr "exit", rstr "stop", rstr "cancel",
      rstr "end"])
  , bounded (ralts [rseq [rstr "I", ralts [rstr "\x27m", rstr " am"],
      rstr " done"], rseq [rstr "that\x27s ", ralts [rstr "it", rstr "all"]]])
  , bounded (ralts [rstr "no more",
      rseq [rstr "stop ", Rx.opt (ralts [rstr "the ", rstr "this "]),
        rstr "interview"]]) ]

/-- `IntentRecognizer.PATTERNS`, in dict iteration order. -/
def PATTERNS : List (UserIntent × List Rx) :=
  [ (UserIntent.repeat, repeatPatterns)
  , (UserIntent.clarify, clarifyPatterns)
  , (UserIntent.skip, skipPatterns)
  , (UserIntent.confirm_yes, confirmYesPatterns)
  , (UserIntent.confirm_no, confirmNoPatterns)
  , (UserIntent.start, startPatterns)
  , (UserIntent.quit, quitPatterns) ]

/-- `IntentRecognizer._match_patterns`: the first matching pattern
determines the confidence from the ratio of the matched length to the
text length (base 0.7, above 0.3 gives 0.8, above 0.5 gives 0.9);
no match gives 0.0. -/
def matchPatterns (text : List Char) : List Rx → ℚ
  | [] => 0
  | p :: rest =>
    match rxSearch p text with
    | some match_length =>
      if (match_length : ℚ) / (text.length : ℚ) > 1/2 then 9/10
      else if (match_length : ℚ) / (text.length : ℚ) > 3/10 then 4/5
      else 7/10
    | none => matchPatterns text rest

/-- Question words of `IntentRecognizer._is_likely_answer`. -/
def questionWords : List (List Char) :=
  ["what", "when", "where", "who", "why", "how"].map String.toList

/-- `IntentRecognizer._is_likely_answer`: texts of at most two words, or
texts starting with a question word, are not answers. -/
def isLikelyAnswer (text : List Char) : Bool :=
  if (pySplit text).length ≤ 2 then false
  else if questionWords.any (fun w => w.isPrefixOf text) then false
  else true

/-- The recognizer's configuration: its confidence threshold. -/
structure IntentRecognizer where
  confidence_threshold : ℚ

/-- `IntentRecognizer.__init__`: validates the threshold range. -/
def mkIntentRecognizer (confidence_threshold : ℚ) :
    Except String IntentRecognizer :=
  if 0 ≤ confidence_threshold ∧ confidence_threshold ≤ 1 then
    .ok ⟨confidence_threshold⟩
  else
    .error "confidence_threshold must be between 0.0 and 1.0"

/-- Context boost of `IntentRecognizer.recognize`: an intent equal to the
supplied context intent has its confidence multiplied by 1.2, capped
at 1.0. -/
def contextBoost (context_intent : Option UserIntent) (intent : UserIntent)
    (confidence : ℚ) : ℚ :=
  match context_intent with
  | some ci => if intent = ci then min 1 (confidence * (6/5)) else confidence
  | none => confidence

/-- One step of the best-match accumulation in `recognize`: strictly
greater confidence replaces the current best (ties keep the earlier
intent). -/
def bestStep (text : List Char) (ctx : Option UserIntent)
    (best : UserIntent × ℚ) (ip : UserIntent × List Rx) : UserIntent × ℚ :=
  let confidence := contextBoost ctx ip.1 (matchPatterns text ip.2)
  if confidence > best.2 then (ip.1, confidence) else best

/-- The best (intent, confidence) pair over all seven pattern-bearing
intents, starting from `(UNKNOWN, 0.0)`. -/
def bestPatternMatch (text_lower : List Char) (ctx : Option UserIntent) :
    UserIntent × ℚ :=
  PATTERNS.foldl (bestStep text_lower ctx) (UserIntent.unknown, 0)

/-- `IntentRecognizer.recognize`. -/
def recognize (r : IntentRecognizer) (text : String)
    (context_intent : Option UserIntent) : UserIntent × ℚ :=
  if pyStripL text.toList = [] then (UserIntent.unknown, 0)
  else
    let text_lower := pyStripL (pyLowerL text.toList)
    let best := bestPatternMatch text_lower context_intent
    if best.2 < r.confidence_threshold ∧ isLikelyAnswer text_lower then
      (UserIntent.answer, 4/5)
    else if best.2 ≥ r.confidence_threshold then best
    else (UserIntent.unknown, best.2)

/-! ## Conversation state machine (`core/conversation_state.py`) -/

inductive ConversationState where
  | init
  | greeting
  | questioning
  | confirming
  | closing
  | complete
  | error
deriving DecidableEq

/-- The `.value` attribute of the `ConversationState` enum members. -/
def ConversationState.value : ConversationState → String
  | .init => "init"
  | .greeting => "greeting"
  | .questioning => "questioning"
  | .confirming => "confirming"
  | .closing => "closing"
  | .complete => "complete"
  | .error => "error"

/-- `ConversationStateMachine`: current state, previous state (for error
recovery), error message. -/
structure ConversationStateMachine where
  current_state : ConversationState
  previous_state : Option ConversationState
  error_message : Option String
deriving DecidableEq

/-- The `valid_transitions` dict literal inside
`ConversationStateMachine._is_valid_transition`. -/
def validTransitionTargets : ConversationState → List ConversationState
  | .init => [.greeting]
  | .greeting => [.questioning, .complete]
  | .questioning => [.questioning, .confirming, .closing, .complete]
  | .confirming => [.questioning, .closing]
  | .closing => [.complete]
  | .complete => []
  | .error => [.init, .greeting, .questioning, .confirming, .closing]

/-- `ConversationStateMachine._is_valid_transition`: any state may enter
ERROR; otherwise look the target up in the transition dict. -/
def is_valid_transition (from_state to_state : ConversationState) : Bool :=
  if to_state = ConversationState.error then true
  else (validTransitionTargets from_state).contains to_state

/-- `ConversationStateMachine.transition_to`: raises `ValueError` naming
both states on an invalid transition, otherwise stores the old state as
`previous_state`, moves to the new state and clears the error message. -/
def transition_to (m : ConversationStateMachine) (new_state : ConversationState) :
    Except String ConversationStateMachine :=
  if ¬ is_valid_transition m.current_state new_state then
    Except.error ("Invalid transition from " ++ m.current_state.value ++
      " to " ++ new_state.value)
  else
    Except.ok ⟨new_state, some m.current_state, none⟩

/-- `ConversationStateMachine.set_error`: unconditionally moves to ERROR,
remembering the prior state and the message. -/
def set_error (m : ConversationStateMachine) (msg : String) :
    ConversationStateMachine :=
  ⟨ConversationState.error, some m.current_state, some msg⟩

/-- `ConversationStateMachine.recover_from_error`: raises unless currently
in ERROR with a recorded previous state; otherwise returns to the
previous state and clears the error message (the previous-state field
itself is left as it was). -/
def recover_from_error (m : ConversationStateMachine) :
    Except String ConversationStateMachine :=
  if m.current_state ≠ ConversationState.error then
    Except.error "Cannot recover: not in ERROR state"
  else
    match m.previous_state with
    | none => Except.error "Cannot recover: no previous state available"
    | some p => Except.ok ⟨p, m.previous_state, none⟩

/-- `ConversationStateMachine.is_terminal`. -/
def is_terminal (m : ConversationStateMachine) : Bool :=
  m.current_state = ConversationState.complete

/-- The transition table as written in spec §4.1 (outgoing edges; ERROR is
reachable from every state and not listed per-row).  This definition
follows the spec text and is compared against the behaviour of
`transition_to`, which was translated from the source. -/
def specTransitionRow : ConversationState → List ConversationState
  | .init => [.greeting]
  | .greeting => [.questioning, .complete]
  | .questioning => [.questioning, .confirming, .closing, .complete]
  | .confirming => [.questioning, .closing]
  | .closing => [.complete]
  | .complete => []
  | .error => [.init, .greeting, .questioning, .confirming, .closing]

/-! ## Audio quality gate (`InterviewOrchestrator._listen_for_response`)

The gate is the pure core of `_listen_for_response`: from the recorded
16-bit samples, the sample rate, the channel count and the transcribed
text it decides what text reaches the intent recognizer.  Recording
itself, logging, and the duplicate-capture counter (which is only a
logged diagnostic and never alters the returned text) are not part of
the returned value and are omitted. -/

/-- `audio_duration = len(audio_data) / (sample_rate * channels * 2)`
where `audio_data` holds two bytes per 16-bit sample. -/
def audio_duration (samples : List Int) (sample_rate channels : ℕ) : ℚ :=
  ((2 * samples.length : ℕ) : ℚ) / ((sample_rate * channels * 2 : ℕ) : ℚ)

/-- `avg_amplitude = sum(abs(sample) for sample in audio_samples) /
len(audio_samples)`. -/
def avg_amplitude (samples : List Int) : ℚ :=
  (samples.map (fun s => ((s.natAbs : ℕ) : ℚ))).sum / ((samples.length : ℕ) : ℚ)

/-- The `WHISPER_HALLUCINATIONS` list literal of the source. -/
def WHISPER_HALLUCINATIONS : List String :=
  ["you", "thank you", "thanks", ".", "...", "bye", "goodbye", "music",
   "subscribe"]

/-- The quality gate of `_listen_for_response`: reject captures shorter
than 0.5 seconds, captures of mean absolute amplitude below 100, and
known hallucination transcripts on captures under 2.0 seconds; otherwise
return the stripped transcript. -/
def listen_quality_gate (samples : List Int) (sample_rate channels : ℕ)
    (transcript : String) : String :=
  let dur := audio_duration samples sample_rate channels
  if dur < 1/2 then ""
  else if avg_amplitude samples < 100 then ""
  else
    let user_text := pyStrip transcript
    if pyLower user_text ∈ WHISPER_HALLUCINATIONS ∧ dur < 2 then ""
    else user_text

/-! ## Session data model (`models/interview.py`)

Fields not used by the conversation core (UUIDs, wall-clock timestamps,
the confidence placeholder of `Question`, `clarification_requested`) are
omitted; `duration_seconds` is measured with the model clock of the
orchestrator state, which advances by one tick per listen. -/

structure Question where
  number : ℕ
  text : String
deriving DecidableEq

structure Response where
  text : String
  confidence : ℚ
  retry_count : ℕ
deriving DecidableEq

structure ConversationTurn where
  question : Question
  response : Option Response
  duration_seconds : ℕ
  skipped : Bool
deriving DecidableEq

structure InterviewSession where
  turns : List ConversationTurn
  completed : Bool
deriving DecidableEq

/-- `InterviewSession.add_turn`: appends unconditionally. -/
def InterviewSession.add_turn (s : InterviewSession) (t : ConversationTurn) :
    InterviewSession :=
  { s with turns := s.turns ++ [t] }

/-- `InterviewSession.mark_completed`: sets the completion flag (and the
end timestamp, which the model does not track). -/
def InterviewSession.mark_completed (s : InterviewSession) : InterviewSession :=
  { s with completed := true }

/-! ## Interview orchestrator (`core/interview.py`)

The orchestrator's interaction with the outside world is a sequence of
listen results: each call to `_listen_for_response` (or, during
greeting, to the raw transcription) yields either the gated transcription
text or an external interruption (`KeyboardInterrupt`).  A run is then a
pure function of the configuration and that scripted input sequence.
`speak` calls produce no observable state change and are omitted.
Python exceptions propagate as an `exn` result; running out of scripted
inputs ends the model as `starved` (an execution prefix). -/

inductive ListenEvent where
  | utter : String → ListenEvent
  | interrupt : ListenEvent
deriving DecidableEq

/-- Observable session mutations, recorded in order for the
no-append-after-completion claim. -/
inductive SessionEvent where
  | addTurn : SessionEvent
  | markCompleted : SessionEvent
deriving DecidableEq

inductive PyExn where
  | keyboardInterrupt : PyExn
  | pyError : String → PyExn
deriving DecidableEq

/-- Construction-time configuration of `InterviewOrchestrator`. -/
structure OrchConfig where
  questions : List Question
  enable_confirmation : Bool
  max_retries : ℕ
deriving DecidableEq

/-- The orchestrator's mutable state: scripted inputs, model clock, state
machine, session, and the per-question fields of the source. -/
structure OrchState where
  inputs : List ListenEvent
  now : ℕ
  sm : ConversationStateMachine
  session : InterviewSession
  current_question_index : ℕ
  current_question : Option Question
  current_response_text : Option String
  retry_count : ℕ
  events : List SessionEvent
deriving DecidableEq

/-- Result of a stateful step: normal value, propagating exception, or
exhausted input script. -/
inductive Res (α : Type) where
  | ok : α → OrchState → Res α
  | exn : PyExn → OrchState → Res α
  | starved : OrchState → Res α
deriving DecidableEq

/-- The state carried by any result. -/
def Res.state {α : Type} : Res α → OrchState
  | .ok _ s => s
  | .exn _ s => s
  | .starved s => s

/-- The orchestrator's recognizer: `IntentRecognizer()` with the default
threshold 0.7. -/
def orchRecognizer : IntentRecognizer :=
  ⟨7/10⟩

/-- `self.session.add_turn(turn)`, recording the event. -/
def addTurnT (st : OrchState) (t : ConversationTurn) : OrchState :=
  { st with session := st.session.add_turn t,
            events := st.events ++ [SessionEvent.addTurn] }

/-- `self.session.mark_completed()`, recording the event. -/
def markCompletedT (st : OrchState) : OrchState :=
  { st with session := st.session.mark_completed,
            events := st.events ++ [SessionEvent.markCompleted] }

/-- One listen step: consume the next scripted event, advancing the model
clock.  An `interrupt` event raises `KeyboardInterrupt` out of the
listen call. -/
def listen (st : OrchState) : Res String :=
  match st.inputs with
  | [] => .starved st
  | ListenEvent.utter s :: rest =>
    .ok s { st with inputs := rest, now := st.now + 1 }
  | ListenEvent.interrupt :: rest =>
    .exn PyExn.keyboardInterrupt { st with inputs := rest, now := st.now + 1 }

/-- `InterviewOrchestrator._confirm_answer`: transition to CONFIRMING,
speak the captured text back, listen once primed with
`context_intent=CONFIRM_YES`, transition back to QUESTIONING;
CONFIRM_YES confirms, CONFIRM_NO and anything else increment the retry
counter and reject. -/
def confirm_answer (st : OrchState) : Res Bool :=
  match transition_to st.sm ConversationState.confirming with
  | Except.error m => .exn (PyExn.pyError m) st
  | Except.ok sm1 =>
    match listen { st with sm := sm1 } with
    | .starved s => .starved s
    | .exn e s => .exn e s
    | .ok user_text st2 =>
      let ic := recognize orchRecognizer user_text (some UserIntent.confirm_yes)
      match transition_to st2.sm ConversationState.questioning with
      | Except.error m => .exn (PyExn.pyError m) st2
      | Except.ok sm2 =>
        let st3 := { st2 with sm := sm2 }
        if ic.1 = UserIntent.confirm_yes then .ok true st3
        else .ok false { st3 with retry_count := st3.retry_count + 1 }

/-- `InterviewOrchestrator._skip_question`: append a skipped turn (when a
current question exists) and advance the question index. -/
def skip_question (st : OrchState) (turn_start : ℕ) : OrchState :=
  match st.current_question with
  | some q =>
    let st1 := addTurnT st ⟨q, none, st.now - turn_start, true⟩
    { st1 with current_question_index := st1.current_question_index + 1 }
  | none => { st with current_question_index := st.current_question_index + 1 }

/-- `InterviewOrchestrator._handle_early_exit`: mark the session complete,
then transition to COMPLETE. -/
def handle_early_exit (st : OrchState) : Res Unit :=
  let st1 := markCompletedT st
  match transition_to st1.sm ConversationState.complete with
  | Except.error m => .exn (PyExn.pyError m) st1
  | Except.ok sm2 => .ok () { st1 with sm := sm2 }

/-- `InterviewOrchestrator._save_turn`: append one turn recording the
current response text (none when no text is set — Python truthiness also
drops an empty string), the retry count and the duration. -/
def save_turn (st : OrchState) (turn_start : ℕ) : OrchState :=
  match st.current_question with
  | none => st
  | some q =>
    let response : Option Response :=
      match st.current_response_text with
      | some t => if t = "" then none else some ⟨t, 9/10, st.retry_count⟩
      | none => none
    addTurnT st ⟨q, response, st.now - turn_start, false⟩

theorem listen_ok_inputs_lt (st : OrchState) (s : String) (st' : OrchState) :
    listen st = .ok s st' → st'.inputs.length < st.inputs.length := by
  unfold listen
  match h : st.inputs with
  | [] => intro hc; cases hc
  | ListenEvent.utter t :: rest =>
    intro hok
    cases hok
    simp [h]
  | ListenEvent.interrupt :: rest => intro hc; cases hc

theorem confirm_answer_ok_inputs_lt (st : OrchState) (b : Bool)
    (st' : OrchState) :
    confirm_answer st = .ok b st' → st'.inputs.length < st.inputs.length := by
  intro hok
  unfold confirm_answer at hok
  split at hok
  · cases hok
  · rename_i sm1 _
    split at hok
    · cases hok
    · cases hok
    · rename_i user_text st2 hlisten
      have hlt := listen_ok_inputs_lt _ _ _ hlisten
      split at hok
      · cases hok
      · simp only [] at hok
        split at hok <;> (cases hok; simpa using hlt)

/-- Exit mode of the inner answer loop of `_process_question`: the loop
either falls through (answer accepted, retries exhausted) or the source
executes `return` (SKIP and QUIT paths). -/
inductive LoopExit where
  | fallthrough : LoopExit
  | returned : LoopExit
deriving DecidableEq

/-- Outcome of one iteration of the answer loop: loop again, leave the
loop (`break` or `return` in the source), or abnormal end. -/
inductive LoopStep where
  | again : OrchState → LoopStep
  | exit : LoopExit → OrchState → LoopStep
  | exn : PyExn → OrchState → LoopStep
  | starved : OrchState → LoopStep
deriving DecidableEq

/-- One iteration of the `while self.retry_count < self.max_retries` loop
of `InterviewOrchestrator._process_question`.  Empty gated input
increments the retry counter and loops; REPEAT and CLARIFY re-ask
without consuming a retry; SKIP appends a skipped turn and returns; QUIT
marks the session complete and returns; every other intent (ANSWER,
UNKNOWN, CONFIRM_YES, CONFIRM_NO, START) is an answer attempt, which is
confirmed when confirmation is enabled: a confirmed answer breaks, a
rejected one breaks when the retries are exhausted and loops
otherwise. -/
def process_iteration (cfg : OrchConfig) (st : OrchState) (turn_start : ℕ) :
    LoopStep :=
  match listen st with
  | .starved s => .starved s
  | .exn e s => .exn e s
  | .ok user_text st1 =>
    if user_text = "" then
      .again { st1 with retry_count := st1.retry_count + 1 }
    else
      match (recognize orchRecognizer user_text none).1 with
      | UserIntent.repeat => .again st1
      | UserIntent.clarify => .again st1
      | UserIntent.skip =>
        .exit LoopExit.returned (skip_question st1 turn_start)
      | UserIntent.quit =>
        (match handle_early_exit st1 with
         | .ok _ s => .exit LoopExit.returned s
         | .exn e s => .exn e s
         | .starved s => .starved s)
      | _ =>
        let st2 := { st1 with current_response_text := some user_text }
        if cfg.enable_confirmation then
          match confirm_answer st2 with
          | .starved s => .starved s
          | .exn e s => .exn e s
          | .ok confirmed st3 =>
            if confirmed then .exit LoopExit.fallthrough st3
            else if cfg.max_retries ≤ st3.retry_count then
              .exit LoopExit.fallthrough st3
            else .again st3
        else .exit LoopExit.fallthrough st2

theorem process_iteration_again_inputs_lt (cfg : OrchConfig) (st : OrchState)
    (ts : ℕ) (s : OrchState) :
    process_iteration cfg st ts = .again s →
    s.inputs.length < st.inputs.length := by
  intro h
  unfold process_iteration at h
  split at h
  · cases h
  · cases h
  · rename_i user_text st1 hlisten
    have hlt := listen_ok_inputs_lt _ _ _ hlisten
    split at h
    · cases h
      simpa using hlt
    · split at h
      · cases h; exact hlt
      · cases h; exact hlt
      · cases h
      · split at h <;> cases h
      · split at h
        · simp only [] at h
          split at h
          · cases h
          · cases h
          · rename_i confirmed st3 hconf
            have hc := confirm_answer_ok_inputs_lt _ _ _ hconf
            split at h
            · cases h
            · split at h
              · cases h
              · cases h
                simp at hc
                omega
        · cases h

/-- The answer loop of `_process_question`: run iterations while
`retry_count < max_retries`; when the guard fails the loop falls
through. -/
def process_loop (cfg : OrchConfig) (st : OrchState) (turn_start : ℕ) :
    Res LoopExit :=
  if st.retry_count < cfg.max_retries then
    match h : process_iteration cfg st turn_start with
    | .again s => process_loop cfg s turn_start
    | .exit ex s => .ok ex s
    | .exn e s => .exn e s
    | .starved s => .starved s
  else .ok LoopExit.fallthrough st
termination_by st.inputs.length
decreasing_by
  exact process_iteration_again_inputs_lt cfg st turn_start s h

/-- The state carried by a loop step. -/
def LoopStep.state : LoopStep → OrchState
  | .again s => s
  | .exit _ s => s
  | .exn _ s => s
  | .starved s => s

theorem listen_starved_eq (st : OrchState) (s : OrchState) :
    listen st = .starved s → s = st := by
  unfold listen
  match h : st.inputs with
  | [] => intro hc; cases hc; rfl
  | ListenEvent.utter t :: rest => intro hc; cases hc
  | ListenEvent.interrupt :: rest => intro hc; cases hc

theorem listen_exn_inputs_lt (st : OrchState) (e : PyExn) (s : OrchState) :
    listen st = .exn e s → s.inputs.length < st.inputs.length := by
  unfold listen
  match h : st.inputs with
  | [] => intro hc; cases hc
  | ListenEvent.utter t :: rest => intro hc; cases hc
  | ListenEvent.interrupt :: rest => intro hc; cases hc; simp [h]

theorem skip_question_inputs (st : OrchState) (ts : ℕ) :
    (skip_question st ts).inputs = st.inputs := by
  unfold skip_question
  split <;> simp [addTurnT]

theorem save_turn_inputs (st : OrchState) (ts : ℕ) :
    (save_turn st ts).inputs = st.inputs := by
  unfold save_turn
  split <;> simp [addTurnT]

theorem handle_early_exit_state_inputs (st : OrchState) :
    ((handle_early_exit st).state).inputs = st.inputs := by
  unfold handle_early_exit
  simp only []
  split <;> simp [Res.state, markCompletedT]

theorem confirm_answer_state_inputs_le (st : OrchState) :
    ((confirm_answer st).state).inputs.length ≤ st.inputs.length := by
  unfold confirm_answer
  split
  · simp [Res.state]
  · split
    · rename_i s hlisten
      have := listen_starved_eq _ _ hlisten
      simp [Res.state, this]
    · rename_i e s hlisten
      have := listen_exn_inputs_lt _ _ _ hlisten
      simp [Res.state]
      simp at this
      omega
    · rename_i user_text st2 hlisten
      have hlt := listen_ok_inputs_lt _ _ _ hlisten
      simp at hlt
      split
      · simp [Res.state]
        omega
      · simp only []
        split <;> simp [Res.state] <;> omega

theorem process_iteration_state_inputs_le (cfg : OrchConfig) (st : OrchState)
    (ts : ℕ) :
    ((process_iteration cfg st ts).state).inputs.length ≤ st.inputs.length := by
  unfold process_iteration
  split
  · rename_i s hlisten
    have := listen_starved_eq _ _ hlisten
    simp [LoopStep.state, this]
  · rename_i e s hlisten
    have := listen_exn_inputs_lt _ _ _ hlisten
    simp [LoopStep.state]
    omega
  · rename_i user_text st1 hlisten
    have hlt := listen_ok_inputs_lt _ _ _ hlisten
    split
    · simp [LoopStep.state]
      omega
    · split
      · simp [LoopStep.state]; omega
      · simp [LoopStep.state]; omega
      · simp [LoopStep.state, skip_question_inputs]
        omega
      · split
        · rename_i u s heq
          have := handle_early_exit_state_inputs st1
          rw [heq] at this
          simp [Res.state] at this
          simp [LoopStep.state, this]
          omega
        · rename_i e s heq
          have := handle_early_exit_state_inputs st1
          rw [heq] at this
          simp [Res.state] at this
          simp [LoopStep.state, this]
          omega
        · rename_i s heq
          have := handle_early_exit_state_inputs st1
          rw [heq] at this
          simp [Res.state] at this
          simp [LoopStep.state, this]
          omega
      · split
        · simp only []
          split
          · rename_i s heq
            have hc := confirm_answer_state_inputs_le
              { st1 with current_response_text := some user_text }
            rw [heq] at hc
            simp [Res.state] at hc
            simp [LoopStep.state]
            omega
          · rename_i e s heq
            have hc := confirm_answer_state_inputs_le
              { st1 with current_response_text := some user_text }
            rw [heq] at hc
            simp [Res.state] at hc
            simp [LoopStep.state]
            omega
          · rename_i confirmed st3 heq
            have hc := confirm_answer_state_inputs_le
              { st1 with current_response_text := some user_text }
            rw [heq] at hc
            simp [Res.state] at hc
            split
            · simp [LoopStep.state]; omega
            · split <;> simp [LoopStep.state] <;> omega
        · simp [LoopStep.state]
          omega

theorem process_iteration_exit_inputs_lt (cfg : OrchConfig) (st : OrchState)
    (ts : ℕ) (ex : LoopExit) (s : OrchState) :
    process_iteration cfg st ts = .exit ex s →
    s.inputs.length < st.inputs.length := by
  intro h
  unfold process_iteration at h
  split at h
  · cases h
  · cases h
  · rename_i user_text st1 hlisten
    have hlt := listen_ok_inputs_lt _ _ _ hlisten
    split at h
    · cases h
    · split at h
      · cases h
      · cases h
      · cases h
        rw [skip_question_inputs]
        omega
      · split at h
        · rename_i u s2 heq
          cases h
          have hh := handle_early_exit_state_inputs st1
          rw [heq] at hh
          simp [Res.state] at hh
          rw [hh]
          omega
        · cases h
        · cases h
      · split at h
        · simp only [] at h
          split at h
          · cases h
          · cases h
          · rename_i confirmed st3 heq
            have hc := confirm_answer_state_inputs_le
              { st1 with current_response_text := some user_text }
            rw [heq] at hc
            simp [Res.state] at hc
            split at h
            · cases h; omega
            · split at h
              · cases h; omega
              · cases h
        · cases h
          simpa using hlt
theorem process_loop_guard_false (cfg : OrchConfig) (st : OrchState) (ts : ℕ)
    (h : ¬ st.retry_count < cfg.max_retries) :
    process_loop cfg st ts = .ok LoopExit.fallthrough st := by
  rw [process_loop]
  simp [h]

theorem process_loop_again (cfg : OrchConfig) (st : OrchState) (ts : ℕ)
    (s : OrchState) (h : st.retry_count < cfg.max_retries)
    (hit : process_iteration cfg st ts = .again s) :
    process_loop cfg st ts = process_loop cfg s ts := by
  rw [process_loop]
  simp only [h, if_pos]
  split <;> rename_i heq <;> rw [hit] at heq <;> cases heq
  rfl

theorem process_loop_exit (cfg : OrchConfig) (st : OrchState) (ts : ℕ)
    (ex : LoopExit) (s : OrchState) (h : st.retry_count < cfg.max_retries)
    (hit : process_iteration cfg st ts = .exit ex s) :
    process_loop cfg st ts = .ok ex s := by
  rw [process_loop]
  simp only [h, if_pos]
  split <;> rename_i heq <;> rw [hit] at heq <;> cases heq
  rfl

theorem process_loop_exn (cfg : OrchConfig) (st : OrchState) (ts : ℕ)
    (e : PyExn) (s : OrchState) (h : st.retry_count < cfg.max_retries)
    (hit : process_iteration cfg st ts = .exn e s) :
    process_loop cfg st ts = .exn e s := by
  rw [process_loop]
  simp only [h, if_pos]
  split <;> rename_i heq <;> rw [hit] at heq <;> cases heq
  rfl

theorem process_loop_starved (cfg : OrchConfig) (st : OrchState) (ts : ℕ)
    (s : OrchState) (h : st.retry_count < cfg.max_retries)
    (hit : process_iteration cfg st ts = .starved s) :
    process_loop cfg st ts = .starved s := by
  rw [process_loop]
  simp only [h, if_pos]
  split <;> rename_i heq <;> rw [hit] at heq <;> cases heq
  rfl

theorem process_loop_state_inputs_le (cfg : OrchConfig) (st : OrchState)
    (ts : ℕ) :
    ((process_loop cfg st ts).state).inputs.length ≤ st.inputs.length := by
  induction st, ts using process_loop.induct cfg with
  | case1 st ts hguard s hiter ih =>
    rw [process_loop_again cfg st ts s hguard hiter]
    have h2 := process_iteration_again_inputs_lt cfg st ts s hiter
    omega
  | case2 st ts hguard ex s hiter =>
    rw [process_loop_exit cfg st ts ex s hguard hiter]
    have h2 := process_iteration_state_inputs_le cfg st ts
    rw [hiter] at h2
    simpa [LoopStep.state, Res.state] using h2
  | case3 st ts hguard e s hiter =>
    rw [process_loop_exn cfg st ts e s hguard hiter]
    have h2 := process_iteration_state_inputs_le cfg st ts
    rw [hiter] at h2
    simpa [LoopStep.state, Res.state] using h2
  | case4 st ts hguard s hiter =>
    rw [process_loop_starved cfg st ts s hguard hiter]
    have h2 := process_iteration_state_inputs_le cfg st ts
    rw [hiter] at h2
    simpa [LoopStep.state, Res.state] using h2
  | case5 st ts hguard =>
    rw [process_loop_guard_false cfg st ts hguard]
    simp [Res.state]

theorem process_loop_ok_consumes (cfg : OrchConfig) (st : OrchState) (ts : ℕ)
    (ex : LoopExit) (s : OrchState) :
    st.retry_count < cfg.max_retries → process_loop cfg st ts = .ok ex s →
    s.inputs.length < st.inputs.length := by
  intro hguard hok
  match hit : process_iteration cfg st ts with
  | .again s2 =>
    rw [process_loop_again cfg st ts s2 hguard hit] at hok
    have h1 := process_iteration_again_inputs_lt cfg st ts s2 hit
    have h2 := process_loop_state_inputs_le cfg s2 ts
    rw [hok] at h2
    simp [Res.state] at h2
    omega
  | .exit ex2 s2 =>
    rw [process_loop_exit cfg st ts ex2 s2 hguard hit] at hok
    cases hok
    exact process_iteration_exit_inputs_lt cfg st ts _ _ hit
  | .exn e2 s2 =>
    rw [process_loop_exn cfg st ts e2 s2 hguard hit] at hok
    cases hok
  | .starved s2 =>
    rw [process_loop_starved cfg st ts s2 hguard hit] at hok
    cases hok

/-- `InterviewOrchestrator._process_question`: fetch the current question,
reset the retry counter, record the turn start, run the answer loop;
when the loop falls through, save the turn and advance the index. -/
def process_question (cfg : OrchConfig) (st : OrchState) : Res Unit :=
  match cfg.questions[st.current_question_index]? with
  | none => .exn (PyExn.pyError "IndexError: list index out of range") st
  | some q =>
    let st1 := { st with current_question := some q, retry_count := 0 }
    match process_loop cfg st1 st1.now with
    | .starved s => .starved s
    | .exn e s => .exn e s
    | .ok LoopExit.returned s => .ok () s
    | .ok LoopExit.fallthrough s =>
      let s1 := save_turn s st1.now
      .ok () { s1 with current_question_index := s1.current_question_index + 1 }

/-- The greeting loop of `InterviewOrchestrator._handle_greeting`:
listen (primed with `context_intent=START`) until a START intent breaks
or a QUIT intent marks the session complete and transitions to
COMPLETE; anything else re-prompts and loops, without bound. -/
def greeting_loop (st : OrchState) : Res Unit :=
  match h : listen st with
  | .starved s => .starved s
  | .exn e s => .exn e s
  | .ok user_text st1 =>
    match (recognize orchRecognizer user_text (some UserIntent.start)).1 with
    | UserIntent.start => .ok () st1
    | UserIntent.quit =>
      let st2 := markCompletedT st1
      (match transition_to st2.sm ConversationState.complete with
       | Except.error m => .exn (PyExn.pyError m) st2
       | Except.ok sm2 => .ok () { st2 with sm := sm2 })
    | _ => greeting_loop st1
termination_by st.inputs.length
decreasing_by
  exact listen_ok_inputs_lt st user_text st1 h

theorem process_question_ok_inputs_lt (cfg : OrchConfig) (st : OrchState)
    (u : Unit) (s : OrchState) (hmr : 1 ≤ cfg.max_retries) :
    process_question cfg st = .ok u s → s.inputs.length < st.inputs.length := by
  intro h
  unfold process_question at h
  split at h
  · cases h
  · rename_i q hq
    simp only [] at h
    split at h
    · cases h
    · cases h
    · cases h
      rename_i heq
      have := process_loop_ok_consumes cfg _ _ _ _ (by simp; omega) heq
      simpa using this
    · cases h
      rename_i heq
      have := process_loop_ok_consumes cfg _ _ _ _ (by simp; omega) heq
      simp [save_turn_inputs]
      simpa using this

/-- The `while self.current_question_index < len(self.questions)` loop of
`InterviewOrchestrator.run`, including the early-return when the state
machine became terminal (user quit).  The loop terminates on the scripted
inputs because every processed question consumes at least one listen;
`hmr` is the construction-time guarantee `max_retries >= 1`. -/
def question_loop (cfg : OrchConfig) (hmr : 1 ≤ cfg.max_retries)
    (st : OrchState) : Res Unit :=
  if st.current_question_index < cfg.questions.length then
    match h : process_question cfg st with
    | .starved s => .starved s
    | .exn e s => .exn e s
    | .ok u s =>
      if is_terminal s.sm then .ok () s
      else question_loop cfg hmr s
  else .ok () st
termination_by st.inputs.length
decreasing_by
  exact process_question_ok_inputs_lt cfg st u s hmr h

/-- Result of a whole orchestrator run: `run` returned a session, an
exception propagated to the caller, or the scripted inputs ran out
(the model observed only an execution prefix). -/
inductive RunResult where
  | finished : OrchState → RunResult
  | raised : PyExn → OrchState → RunResult
  | starved : OrchState → RunResult
deriving DecidableEq

/-- The state carried by a run result. -/
def RunResult.state : RunResult → OrchState
  | .finished s => s
  | .raised _ s => s
  | .starved s => s

/-- The exception handlers at the bottom of `InterviewOrchestrator.run`:
`KeyboardInterrupt` sets the ERROR state, marks the session complete and
returns it; any other exception sets the ERROR state and is
re-raised. -/
def handle_exn (e : PyExn) (st : OrchState) : RunResult :=
  match e with
  | PyExn.keyboardInterrupt =>
    .finished (markCompletedT
      { st with sm := set_error st.sm "Interview interrupted by user" })
  | PyExn.pyError m =>
    .raised (PyExn.pyError m)
      { st with sm := set_error st.sm ("Interview failed: " ++ m) }

/-- `InterviewOrchestrator.run` together with the constructor checks of
`__init__` (`max_retries >= 1`, a non-empty question list): greeting,
question loop, closing, completion; a user quit inside the loop returns
the session early; the exception handlers wrap everything. -/
def runOrch (cfg : OrchConfig) (inputs : List ListenEvent) : RunResult :=
  let st0 : OrchState :=
    ⟨inputs, 0, ⟨ConversationState.init, none, none⟩, ⟨[], false⟩, 0, none,
      none, 0, []⟩
  if hmr : 1 ≤ cfg.max_retries then
    if cfg.questions = [] then
      .raised (PyExn.pyError "No questions found in PDF") st0
    else
      match transition_to st0.sm ConversationState.greeting with
      | Except.error m => handle_exn (PyExn.pyError m) st0
      | Except.ok sm1 =>
        match greeting_loop { st0 with sm := sm1 } with
        | .starved s => .starved s
        | .exn e s => handle_exn e s
        | .ok _ s2 =>
          match transition_to s2.sm ConversationState.questioning with
          | Except.error m => handle_exn (PyExn.pyError m) s2
          | Except.ok smq =>
            match question_loop cfg hmr { s2 with sm := smq } with
            | .starved s => .starved s
            | .exn e s => handle_exn e s
            | .ok _ s4 =>
              if is_terminal s4.sm then .finished s4
              else
                match transition_to s4.sm ConversationState.closing with
                | Except.error m => handle_exn (PyExn.pyError m) s4
                | Except.ok smc =>
                  match transition_to smc ConversationState.complete with
                  | Except.error m =>
                    handle_exn (PyExn.pyError m) { s4 with sm := smc }
                  | Except.ok smz =>
                    .finished (markCompletedT { s4 with sm := smz })
  else
    .raised (PyExn.pyError "max_retries must be at least 1") st0

/-- Whether a result is a normal return. -/
def Res.isOk {α : Type} : Res α → Bool
  | .ok _ _ => true
  | _ => false

/-- No `addTurn` event occurs after a `markCompleted` event: once the
session is marked complete, no further turn is ever appended. -/
def noAddAfterMark : List SessionEvent → Bool
  | [] => true
  | SessionEvent.addTurn :: r => noAddAfterMark r
  | SessionEvent.markCompleted :: r =>
    decide (SessionEvent.addTurn ∉ r)

/-! Concrete fixtures used to witness the orchestrator claims. -/

/-- A one-question configuration with confirmation on and three
retries. -/
def fixCfg : OrchConfig :=
  ⟨[⟨1, "What is your name?"⟩], true, 3⟩

/-- An orchestrator state in QUESTIONING at question 0 with an empty
session, about to process a question with the given scripted inputs. -/
def fixQState (inputs : List ListenEvent) : OrchState :=
  ⟨inputs, 0, ⟨ConversationState.questioning, some ConversationState.greeting,
    none⟩, ⟨[], false⟩, 0, none, none, 0, []⟩

/-- No `markCompleted` event has been recorded yet. -/
def markFree (evs : List SessionEvent) : Prop :=
  SessionEvent.markCompleted ∉ evs

/-- The event list is a mark-free prefix followed by a single final
`markCompleted`. -/
def markLast (evs : List SessionEvent) : Prop :=
  ∃ e1, evs = e1 ++ [SessionEvent.markCompleted] ∧
    SessionEvent.markCompleted ∉ e1

/-- One question, confirmation on, a single retry: the configuration of
the confirmation-exhaustion scenario. -/
def c4cfg : OrchConfig :=
  ⟨[⟨1, "What is your name?"⟩], true, 1⟩

/-- The question of the confirmation-exhaustion scenario. -/
def c4q : Question :=
  ⟨1, "What is your name?"⟩

/-- Start state of the confirmation-exhaustion scenario: an answer
followed by a rejected confirmation. -/
def c4st : OrchState :=
  ⟨[ListenEvent.utter "I like green tea", ListenEvent.utter "nope"], 0,
    ⟨ConversationState.questioning, some ConversationState.greeting, none⟩,
    ⟨[], false⟩, 0, some c4q, none, 0, []⟩

/-- State after the answer has been listened to. -/
def c4st1 : OrchState :=
  ⟨[ListenEvent.utter "nope"], 1,
    ⟨ConversationState.questioning, some ConversationState.greeting, none⟩,
    ⟨[], false⟩, 0, some c4q, none, 0, []⟩

/-- State after the rejected confirmation: the retry counter is exhausted
but the captured answer is still held. -/
def c4st3 : OrchState :=
  ⟨[], 2,
    ⟨ConversationState.questioning, some ConversationState.confirming, none⟩,
    ⟨[], false⟩, 0, some c4q, some "I like green tea", 1, []⟩

/-- Two questions, confirmation on, two retries: the configuration of the
retry-exhaustion scenario. -/
def c3cfg : OrchConfig :=
  ⟨[⟨1, "What is your name?"⟩, ⟨2, "Where do you live?"⟩], true, 2⟩

/-- Scripted run: ready, an answer to question 1 confirmed with yes, then
nothing but empty (gated-out) captures for question 2. -/
def c3inputs : List ListenEvent :=
  [ListenEvent.utter "ready", ListenEvent.utter "My name is Bob",
   ListenEvent.utter "yes", ListenEvent.utter "", ListenEvent.utter ""]

/-! ## Auxiliary lemmas about the string helpers -/

theorem isSpaceChar_false_of_toNat (c : Char) (h9 : c.toNat ≠ 9)
    (h10 : c.toNat ≠ 10) (h13 : c.toNat ≠ 13) (h32 : c.toNat ≠ 32) :
    isSpaceChar c = false := by
  unfold isSpaceChar
  simp only [Bool.decide_or] at *
  simp
  refine ⟨?_, ?_, ?_, ?_⟩ <;> intro he <;> subst he
  · exact h32 (by decide)
  · exact h9 (by decide)
  · exact h10 (by decide)
  · exact h13 (by decide)

theorem toNat_char_ofNat_of_lt {m : ℕ} (h : m < 55296) :
    (Char.ofNat m).toNat = m := by
  rw [Char.ofNat, dif_pos (Or.inl h : Char.isValidCharNat m)]
  simp [Char.toNat, Char.ofNatAux, UInt32.ofNat', UInt32.toNat]

theorem isSpaceChar_toLower (c : Char) :
    isSpaceChar (Char.toLower c) = isSpaceChar c := by
  unfold Char.toLower
  simp only []
  split
  · rename_i h
    have hv : c.toNat + 32 < 55296 := by omega
    have ht := toNat_char_ofNat_of_lt hv
    have e1 : isSpaceChar (Char.ofNat (c.toNat + 32)) = false := by
      apply isSpaceChar_false_of_toNat <;> omega
    have e2 : isSpaceChar c = false := by
      apply isSpaceChar_false_of_toNat <;> omega
    rw [e1, e2]
  · rfl

theorem pyStripL_eq_nil_iff (l : List Char) :
    pyStripL l = [] ↔ ∀ c ∈ l, isSpaceChar c := by
  unfold pyStripL
  rw [List.reverse_eq_nil_iff, List.dropWhile_eq_nil_iff]
  constructor
  · intro h c hc
    have hsplit := List.takeWhile_append_dropWhile (p := isSpaceChar) (l := l)
    rw [← hsplit] at hc
    rcases List.mem_append.mp hc with h1 | h2
    · exact List.mem_takeWhile_imp h1
    · exact h c (List.mem_reverse.mpr h2)
  · intro h c hc
    have h2 := List.mem_reverse.mp hc
    have hsplit := List.takeWhile_append_dropWhile (p := isSpaceChar) (l := l)
    apply h
    rw [← hsplit]
    exact List.mem_append.mpr (Or.inr h2)

theorem pyStripL_lower_eq_nil_iff (l : List Char) :
    pyStripL (pyLowerL l) = [] ↔ pyStripL l = [] := by
  rw [pyStripL_eq_nil_iff, pyStripL_eq_nil_iff]
  unfold pyLowerL
  constructor
  · intro h c hc
    have := h (Char.toLower c) (List.mem_map_of_mem Char.toLower hc)
    rwa [isSpaceChar_toLower] at this
  · intro h c hc
    rcases List.mem_map.mp hc with ⟨d, hd, rfl⟩
    rw [isSpaceChar_toLower]
    exact h d hd

/-! ## Claims about the conversation state machine -/

/-- C2: for every machine and target, `transition_to` succeeds exactly
when the target appears in the spec §4.1 row of the current state or the
target is ERROR (reachable from every state, COMPLETE included); on
success it stores the old state as `previous_state` and clears the error
message, and on every other pair it returns a `ValueError` naming both
states (the machine itself, being returned only on success, is
unchanged by a failed call). -/
theorem transition_to_matches_spec_table
    (m : ConversationStateMachine) (t : ConversationState) :
    transition_to m t =
      (if t ∈ specTransitionRow m.current_state ∨ t = ConversationState.error
       then Except.ok ⟨t, some m.current_state, none⟩
       else Except.error ("Invalid transition from " ++
         m.current_state.value ++ " to " ++ t.value)) := by
  rcases m with ⟨cs, ps, em⟩
  cases cs <;> cases t <;>
    simp [transition_to, is_valid_transition, validTransitionTargets,
      specTransitionRow, ConversationState.value]

/-- C8: `recover_from_error` raises when the machine is not in ERROR,
raises when no previous state is recorded, and otherwise returns to the
previous state and clears the error message. -/
theorem recover_from_error_contract (m : ConversationStateMachine) :
    (m.current_state ≠ ConversationState.error →
      recover_from_error m =
        Except.error "Cannot recover: not in ERROR state") ∧
    (m.current_state = ConversationState.error → m.previous_state = none →
      recover_from_error m =
        Except.error "Cannot recover: no previous state available") ∧
    (∀ p, m.current_state = ConversationState.error →
      m.previous_state = some p →
      recover_from_error m = Except.ok ⟨p, some p, none⟩) := by
  refine ⟨?_, ?_, ?_⟩
  · intro h
    simp [recover_from_error, h]
  · intro h hp
    simp [recover_from_error, h, hp]
  · intro p h hp
    simp [recover_from_error, h, hp]

/-- Witness for C8 at concrete machines: a non-ERROR machine, an ERROR
machine without previous state, and an ERROR machine with a previous
state. -/
theorem recover_from_error_contract_witness :
    recover_from_error ⟨ConversationState.questioning, none, none⟩ =
      Except.error "Cannot recover: not in ERROR state" ∧
    recover_from_error ⟨ConversationState.error, none, some "boom"⟩ =
      Except.error "Cannot recover: no previous state available" ∧
    recover_from_error
        ⟨ConversationState.error, some ConversationState.closing,
          some "boom"⟩ =
      Except.ok ⟨ConversationState.closing, some ConversationState.closing,
        none⟩ :=
  ⟨(recover_from_error_contract
      ⟨ConversationState.questioning, none, none⟩).1 (by decide),
   (recover_from_error_contract
      ⟨ConversationState.error, none, some "boom"⟩).2.1 rfl rfl,
   (recover_from_error_contract
      ⟨ConversationState.error, some ConversationState.closing,
        some "boom"⟩).2.2 ConversationState.closing rfl rfl⟩

/-- C10: `set_error` always succeeds, moving to ERROR and recording the
prior state; when the machine is already in ERROR the recorded previous
state is ERROR itself, so a subsequent `recover_from_error` succeeds but
leaves the current state ERROR instead of restoring the pre-error
state. -/
theorem set_error_from_error_recovers_to_error
    (m : ConversationStateMachine) (msg : String) :
    (set_error m msg).previous_state = some m.current_state ∧
    (set_error m msg).current_state = ConversationState.error ∧
    (set_error m msg).error_message = some msg ∧
    (m.current_state = ConversationState.error →
      (set_error m msg).previous_state = some ConversationState.error ∧
      recover_from_error (set_error m msg) =
        Except.ok ⟨ConversationState.error, some ConversationState.error,
          none⟩) := by
  refine ⟨rfl, rfl, rfl, ?_⟩
  intro h
  constructor
  · simp [set_error, h]
  · simp [set_error, recover_from_error, h]

/-- Witness for C10 at a machine already in ERROR. -/
theorem set_error_from_error_recovers_to_error_witness :
    (set_error ⟨ConversationState.error, some ConversationState.questioning,
        some "old"⟩ "new").previous_state = some ConversationState.error ∧
    recover_from_error
        (set_error ⟨ConversationState.error,
          some ConversationState.questioning, some "old"⟩ "new") =
      Except.ok ⟨ConversationState.error, some ConversationState.error,
        none⟩ :=
  (set_error_from_error_recovers_to_error
    ⟨ConversationState.error, some ConversationState.questioning,
      some "old"⟩ "new").2.2.2 rfl

/-! ## Claims about the audio quality gate -/

/-- C5 (amended): the gate returns empty text exactly when the capture is
shorter than 0.5 seconds (regardless of content), or its mean absolute
amplitude is below 100, or the stripped transcription case-folds to one
of the fixed hallucination strings with a capture under 2.0 seconds, or
the stripped transcription is itself empty; in particular a 1-second
capture transcribed as "thanks" is discarded while "thanks for the
offer" survives unchanged (exact match, not substring). -/
theorem quality_gate_silence_iff (samples : List Int)
    (sample_rate channels : ℕ) (transcript : String) :
    (listen_quality_gate samples sample_rate channels transcript = "" ↔
      (audio_duration samples sample_rate channels < 1/2 ∨
       avg_amplitude samples < 100 ∨
       (pyLower (pyStrip transcript) ∈ WHISPER_HALLUCINATIONS ∧
         audio_duration samples sample_rate channels < 2) ∨
       pyStrip transcript = "")) ∧
    listen_quality_gate [150, 150] 2 1 "thanks" = "" ∧
    listen_quality_gate [150, 150] 2 1 "thanks for the offer" =
      "thanks for the offer" := by
  refine ⟨?_, by with_unfolding_all decide, by with_unfolding_all decide⟩
  unfold listen_quality_gate
  simp only []
  split
  · rename_i h1
    simp only [true_iff]
    exact Or.inl h1
  · rename_i h1
    split
    · rename_i h2
      simp only [true_iff]
      exact Or.inr (Or.inl h2)
    · rename_i h2
      split
      · rename_i h3
        simp only [true_iff]
        exact Or.inr (Or.inr (Or.inl h3))
      · rename_i h3
        constructor
        · intro h
          exact Or.inr (Or.inr (Or.inr h))
        · intro h
          rcases h with h | h | h | h
          · exact absurd h h1
          · exact absurd h h2
          · exact absurd h h3
          · exact h

/-- C5 counterexample to the claim's "exactly when": a 3-second capture
of amplitude 200 with an empty transcription returns empty text although
none of the three stated conditions holds. -/
theorem quality_gate_silence_iff_counterexample :
    listen_quality_gate [200, 200, 200] 1 1 "" = "" ∧
    ¬ (audio_duration [200, 200, 200] 1 1 < 1/2) ∧
    ¬ (avg_amplitude [200, 200, 200] < 100) ∧
    ¬ (pyLower (pyStrip "") ∈ WHISPER_HALLUCINATIONS ∧
        audio_duration [200, 200, 200] 1 1 < 2) := by
  with_unfolding_all decide

/-! ## Claims about the intent recognizer -/

theorem matchPatterns_score (t : List Char) (ps : List Rx) :
    0 ≤ matchPatterns t ps ∧ matchPatterns t ps ≤ 9/10 ∧
    (matchPatterns t ps = 0 ∨ 7/10 ≤ matchPatterns t ps) := by
  induction ps with
  | nil =>
    unfold matchPatterns
    norm_num
  | cons p rest ih =>
    unfold matchPatterns
    split
    · split
      · norm_num
      · split
        · norm_num
        · norm_num
    · exact ih

theorem contextBoost_none (i : UserIntent) (c : ℚ) :
    contextBoost none i c = c := rfl

theorem contextBoost_ge (ctx : Option UserIntent) (i : UserIntent) (c : ℚ)
    (h0 : 0 ≤ c) (h1 : c ≤ 1) : c ≤ contextBoost ctx i c := by
  cases ctx with
  | none => exact le_refl c
  | some ci =>
    by_cases h : i = ci
    · simp only [contextBoost, h, if_pos]
      apply le_min h1
      nlinarith
    · simp [contextBoost, h]

theorem contextBoost_le_one (ctx : Option UserIntent) (i : UserIntent)
    (c : ℚ) (h1 : c ≤ 1) : contextBoost ctx i c ≤ 1 := by
  cases ctx with
  | none => exact h1
  | some ci =>
    by_cases h : i = ci
    · simp only [contextBoost, h, if_pos]
      exact min_le_left 1 _
    · simp [contextBoost, h, h1]

theorem bestStep_snd (t : List Char) (ctx : Option UserIntent)
    (best : UserIntent × ℚ) (ip : UserIntent × List Rx) :
    (bestStep t ctx best ip).2 =
      max best.2 (contextBoost ctx ip.1 (matchPatterns t ip.2)) := by
  unfold bestStep
  simp only []
  split
  · rename_i h
    exact (max_eq_right (le_of_lt h)).symm
  · rename_i h
    exact (max_eq_left (le_of_not_lt h)).symm

theorem bestFold_compare (t : List Char) (ci : UserIntent) :
    ∀ (l : List (UserIntent × List Rx)) (bu bb : UserIntent × ℚ),
      0 ≤ bu.2 → bu.2 ≤ bb.2 → bb.2 ≤ 1 →
      (bb.2 ≤ bu.2 ∨ 21/25 ≤ bb.2) →
      (List.foldl (bestStep t none) bu l).2 ≤
        (List.foldl (bestStep t (some ci)) bb l).2 ∧
      0 ≤ (List.foldl (bestStep t none) bu l).2 ∧
      (List.foldl (bestStep t (some ci)) bb l).2 ≤ 1 ∧
      ((List.foldl (bestStep t (some ci)) bb l).2 ≤
        (List.foldl (bestStep t none) bu l).2 ∨
       21/25 ≤ (List.foldl (bestStep t (some ci)) bb l).2) := by
  intro l
  induction l with
  | nil =>
    intro bu bb h0 h1 h2 h3
    exact ⟨h1, h0, h2, h3⟩
  | cons ip rest ih =>
    intro bu bb h0 h1 h2 h3
    simp only [List.foldl_cons]
    obtain ⟨hs0, hs9, hsd⟩ := matchPatterns_score t ip.2
    have hsle1 : matchPatterns t ip.2 ≤ 1 := by linarith
    have hboost_ge := contextBoost_ge (some ci) ip.1 (matchPatterns t ip.2)
      hs0 hsle1
    have hboost_le := contextBoost_le_one (some ci) ip.1 (matchPatterns t ip.2)
      hsle1
    apply ih
    · rw [bestStep_snd, contextBoost_none]
      exact le_trans h0 (le_max_left _ _)
    · rw [bestStep_snd, bestStep_snd, contextBoost_none]
      exact max_le_max h1 hboost_ge
    · rw [bestStep_snd]
      exact max_le h2 hboost_le
    · rw [bestStep_snd, bestStep_snd, contextBoost_none]
      by_cases hctx : ip.1 = ci
      · rcases hsd with hz | hge
        · have hcb : contextBoost (some ci) ip.1 (matchPatterns t ip.2) = 0 := by
            rw [hz]
            simp [contextBoost, hctx]
          rw [hcb, hz]
          have hbu0 : max bu.2 (0:ℚ) = bu.2 := max_eq_left h0
          have hbb0 : max bb.2 (0:ℚ) = bb.2 := max_eq_left (le_trans h0 h1)
          rw [hbu0, hbb0]
          exact h3
        · have h84 : 21/25 ≤ contextBoost (some ci) ip.1 (matchPatterns t ip.2) := by
            simp only [contextBoost, hctx, if_pos]
            apply le_min
            · norm_num
            · nlinarith
          rcases le_total (contextBoost (some ci) ip.1 (matchPatterns t ip.2))
              bb.2 with hc1 | hc1
          · rw [max_eq_left hc1]
            rcases h3 with h3 | h3
            · left
              exact le_trans h3 (le_max_left _ _)
            · right
              exact h3
          · rw [max_eq_right hc1]
            right
            exact h84
      · have hcb : contextBoost (some ci) ip.1 (matchPatterns t ip.2) =
            matchPatterns t ip.2 := by
          simp [contextBoost, hctx]
        rw [hcb]
        rcases h3 with h3 | h3
        · left
          exact max_le_max h3 (le_refl _)
        · right
          exact le_trans h3 (le_max_left _ _)

/-- C6: adding a context intent never lowers the confidence returned by
`recognize`, for every text, every context intent and every configured
threshold, and the confidence returned with a context never exceeds 1.0
(the boost multiplies by 1.2 but is capped at 1.0). -/
theorem recognize_context_confidence_monotone (th : ℚ) (text : String)
    (ci : UserIntent) :
    (recognize ⟨th⟩ text none).2 ≤ (recognize ⟨th⟩ text (some ci)).2 ∧
    (recognize ⟨th⟩ text (some ci)).2 ≤ 1 := by
  unfold recognize
  split
  · constructor
    · exact le_refl _
    · norm_num
  · simp only []
    obtain ⟨hle, h0, h1, hd⟩ := bestFold_compare
      (pyStripL (pyLowerL text.toList)) ci PATTERNS
      (UserIntent.unknown, 0) (UserIntent.unknown, 0)
      (by norm_num) (by norm_num) (by norm_num) (Or.inl (by norm_num))
    have hbu : (bestPatternMatch (pyStripL (pyLowerL text.toList)) none) =
        List.foldl (bestStep (pyStripL (pyLowerL text.toList)) none)
          (UserIntent.unknown, 0) PATTERNS := rfl
    have hbb : (bestPatternMatch (pyStripL (pyLowerL text.toList)) (some ci)) =
        List.foldl (bestStep (pyStripL (pyLowerL text.toList)) (some ci))
          (UserIntent.unknown, 0) PATTERNS := rfl
    rw [← hbu] at hle h0 hd
    rw [← hbb] at hle h1 hd
    by_cases hbuth :
        (bestPatternMatch (pyStripL (pyLowerL text.toList)) none).2 < th
    · by_cases hbbth :
          (bestPatternMatch (pyStripL (pyLowerL text.toList)) (some ci)).2 < th
      · by_cases hlik : isLikelyAnswer (pyStripL (pyLowerL text.toList)) = true
        · rw [if_pos ⟨hbuth, hlik⟩, if_pos ⟨hbbth, hlik⟩]
          exact ⟨le_refl _, by norm_num⟩
        · have hn1 : ¬ ((bestPatternMatch (pyStripL (pyLowerL text.toList))
              none).2 < th ∧
              isLikelyAnswer (pyStripL (pyLowerL text.toList)) = true) :=
            fun hc => hlik hc.2
          have hn2 : ¬ ((bestPatternMatch (pyStripL (pyLowerL text.toList))
              (some ci)).2 < th ∧
              isLikelyAnswer (pyStripL (pyLowerL text.toList)) = true) :=
            fun hc => hlik hc.2
          rw [if_neg hn1, if_neg hn2,
            if_neg (not_le.mpr hbuth), if_neg (not_le.mpr hbbth)]
          exact ⟨hle, h1⟩
      · have hgebb : th ≤
            (bestPatternMatch (pyStripL (pyLowerL text.toList)) (some ci)).2 :=
          le_of_not_lt hbbth
        by_cases hlik : isLikelyAnswer (pyStripL (pyLowerL text.toList)) = true
        · have hn2 : ¬ ((bestPatternMatch (pyStripL (pyLowerL text.toList))
              (some ci)).2 < th ∧
              isLikelyAnswer (pyStripL (pyLowerL text.toList)) = true) :=
            fun hc => hbbth hc.1
          rw [if_pos ⟨hbuth, hlik⟩, if_neg hn2, if_pos hgebb]
          constructor
          · rcases hd with hd | hd
            · linarith
            · linarith
          · exact h1
        · have hn1 : ¬ ((bestPatternMatch (pyStripL (pyLowerL text.toList))
              none).2 < th ∧
              isLikelyAnswer (pyStripL (pyLowerL text.toList)) = true) :=
            fun hc => hlik hc.2
          have hn2 : ¬ ((bestPatternMatch (pyStripL (pyLowerL text.toList))
              (some ci)).2 < th ∧
              isLikelyAnswer (pyStripL (pyLowerL text.toList)) = true) :=
            fun hc => hbbth hc.1
          rw [if_neg hn1, if_neg hn2,
            if_neg (not_le.mpr hbuth), if_pos hgebb]
          exact ⟨hle, h1⟩
    · have hbbth : ¬
          (bestPatternMatch (pyStripL (pyLowerL text.toList)) (some ci)).2 < th := by
        intro hc
        apply hbuth
        linarith
      have hn1 : ¬ ((bestPatternMatch (pyStripL (pyLowerL text.toList))
          none).2 < th ∧
          isLikelyAnswer (pyStripL (pyLowerL text.toList)) = true) :=
        fun hc => hbuth hc.1
      have hn2 : ¬ ((bestPatternMatch (pyStripL (pyLowerL text.toList))
          (some ci)).2 < th ∧
          isLikelyAnswer (pyStripL (pyLowerL text.toList)) = true) :=
        fun hc => hbbth hc.1
      rw [if_neg hn1, if_neg hn2,
        if_pos (le_of_not_lt hbuth), if_pos (le_of_not_lt hbbth)]
      exact ⟨hle, h1⟩

theorem isLikelyAnswer_iff (t : List Char) :
    isLikelyAnswer t = true ↔
      (2 < (pySplit t).length ∧
       questionWords.any (fun w => w.isPrefixOf t) = false) := by
  unfold isLikelyAnswer
  split
  · rename_i h
    simp
    omega
  · split
    · rename_i h1 h2
      simp [h2]
    · rename_i h1 h2
      simp only [true_iff]
      constructor
      · omega
      · simpa using h2

/-- C7: whenever the best pattern score of a non-empty text over the
seven pattern-bearing intents stays below the configured threshold,
`recognize` returns `(ANSWER, 0.8)` exactly when the normalized text has
more than two words and does not start with a question word
("what", "when", "where", "who", "why", "how"), and otherwise returns
`(UNKNOWN, best_score)`. -/
theorem recognize_low_score_answer_fallback (th : ℚ) (text : String)
    (hne : text ≠ "")
    (hlow : (bestPatternMatch (pyStripL (pyLowerL text.toList)) none).2 < th) :
    recognize ⟨th⟩ text none =
      (if 2 < (pySplit (pyStripL (pyLowerL text.toList))).length ∧
          questionWords.any
            (fun w => w.isPrefixOf (pyStripL (pyLowerL text.toList))) = false
       then (UserIntent.answer, 4/5)
       else (UserIntent.unknown,
         (bestPatternMatch (pyStripL (pyLowerL text.toList)) none).2)) := by
  unfold recognize
  split
  · rename_i hempty
    have htl : pyStripL (pyLowerL text.toList) = [] :=
      (pyStripL_lower_eq_nil_iff text.toList).mpr hempty
    rw [htl]
    have hbest : bestPatternMatch ([] : List Char) none =
        (UserIntent.unknown, 0) := by
      with_unfolding_all decide
    have hsplit : pySplit ([] : List Char) = [] := rfl
    rw [hbest, hsplit]
    simp
  · simp only []
    by_cases hlik : isLikelyAnswer (pyStripL (pyLowerL text.toList)) = true
    · have hcond := (isLikelyAnswer_iff (pyStripL (pyLowerL text.toList))).mp hlik
      rw [if_pos ⟨hlow, hlik⟩, if_pos hcond]
    · have hcond : ¬ (2 < (pySplit (pyStripL (pyLowerL text.toList))).length ∧
          questionWords.any
            (fun w => w.isPrefixOf (pyStripL (pyLowerL text.toList))) = false) := by
        intro hc
        exact hlik ((isLikelyAnswer_iff _).mpr hc)
      have hn1 : ¬ ((bestPatternMatch (pyStripL (pyLowerL text.toList))
          none).2 < th ∧
          isLikelyAnswer (pyStripL (pyLowerL text.toList)) = true) :=
        fun hc => hlik hc.2
      rw [if_neg hn1, if_neg (not_le.mpr hlow), if_neg hcond]

set_option maxRecDepth 100000 in
/-- Witness for C7: "I work as a software engineer" falls back to
`(ANSWER, 0.8)` while "What should I say?" does not (it classifies as
`(UNKNOWN, 0.0)`), both via the fallback theorem at the default
threshold. -/
theorem recognize_low_score_answer_fallback_witness :
    recognize ⟨7/10⟩ "I work as a software engineer" none =
      (UserIntent.answer, 4/5) ∧
    recognize ⟨7/10⟩ "What should I say?" none = (UserIntent.unknown, 0) := by
  constructor
  · have h := recognize_low_score_answer_fallback (7/10)
      "I work as a software engineer" (by decide)
      (by with_unfolding_all decide)
    rw [h]
    with_unfolding_all decide
  · have h := recognize_low_score_answer_fallback (7/10)
      "What should I say?" (by decide)
      (by with_unfolding_all decide)
    rw [h]
    with_unfolding_all decide

/-! ## Field-characterization lemmas for the orchestrator -/

theorem transition_to_ok_eq (m : ConversationStateMachine)
    (t : ConversationState) (m' : ConversationStateMachine) :
    transition_to m t = Except.ok m' →
    m' = ⟨t, some m.current_state, none⟩ := by
  unfold transition_to
  split
  · intro hc; cases hc
  · intro h; cases h; rfl

theorem listen_ok_fields (st : OrchState) (t : String) (s : OrchState) :
    listen st = .ok t s →
    s.session = st.session ∧ s.events = st.events ∧
    s.current_question_index = st.current_question_index ∧
    s.current_question = st.current_question ∧
    s.current_response_text = st.current_response_text ∧
    s.retry_count = st.retry_count ∧ s.sm = st.sm := by
  unfold listen
  match h : st.inputs with
  | [] => intro hc; cases hc
  | ListenEvent.utter u :: rest => intro hok; cases hok; simp
  | ListenEvent.interrupt :: rest => intro hc; cases hc

theorem listen_exn_fields (st : OrchState) (e : PyExn) (s : OrchState) :
    listen st = .exn e s →
    s.session = st.session ∧ s.events = st.events ∧
    s.current_question_index = st.current_question_index ∧
    s.current_question = st.current_question ∧
    s.current_response_text = st.current_response_text ∧ s.sm = st.sm := by
  unfold listen
  match h : st.inputs with
  | [] => intro hc; cases hc
  | ListenEvent.utter u :: rest => intro hc; cases hc
  | ListenEvent.interrupt :: rest => intro hok; cases hok; simp

theorem handle_early_exit_ok_fields (st : OrchState) (u : Unit)
    (s : OrchState) :
    handle_early_exit st = .ok u s →
    s.session.turns = st.session.turns ∧ s.session.completed = true ∧
    s.events = st.events ++ [SessionEvent.markCompleted] ∧
    s.current_question_index = st.current_question_index ∧
    s.current_question = st.current_question ∧
    s.sm.current_state = ConversationState.complete := by
  unfold handle_early_exit
  simp only []
  split
  · intro hc; cases hc
  · rename_i sm2 htr
    intro h
    cases h
    have := transition_to_ok_eq _ _ _ htr
    simp [markCompletedT, InterviewSession.mark_completed, this]

theorem handle_early_exit_exn_fields (st : OrchState) (e : PyExn)
    (s : OrchState) :
    handle_early_exit st = .exn e s →
    s.session.turns = st.session.turns ∧ s.session.completed = true ∧
    s.events = st.events ++ [SessionEvent.markCompleted] ∧
    s.current_question_index = st.current_question_index ∧
    (∃ m, e = PyExn.pyError m) := by
  unfold handle_early_exit
  simp only []
  split
  · rename_i m htr
    intro h
    cases h
    simp [markCompletedT, InterviewSession.mark_completed]
  · intro hc; cases hc

theorem handle_early_exit_ne_starved (st : OrchState) (s : OrchState) :
    handle_early_exit st ≠ .starved s := by
  unfold handle_early_exit
  simp only []
  split <;> intro hc <;> cases hc

theorem confirm_answer_fields (st : OrchState) :
    ((confirm_answer st).state).session = st.session ∧
    ((confirm_answer st).state).events = st.events ∧
    ((confirm_answer st).state).current_question_index =
      st.current_question_index ∧
    ((confirm_answer st).state).current_question = st.current_question ∧
    ((confirm_answer st).state).current_response_text =
      st.current_response_text := by
  unfold confirm_answer
  split
  · simp [Res.state]
  · split
    · rename_i s hlisten
      have := listen_starved_eq _ _ hlisten
      rw [this]
      simp [Res.state]
    · rename_i e s hlisten
      obtain ⟨h1, h2, h3, h4, h5, h6⟩ := listen_exn_fields _ _ _ hlisten
      simp [Res.state, h1, h2, h3, h4, h5]
    · rename_i t st2 hlisten
      obtain ⟨h1, h2, h3, h4, h5, h6, h7⟩ := listen_ok_fields _ _ _ hlisten
      split
      · simp [Res.state, h1, h2, h3, h4, h5]
      · simp only []
        split <;> simp [Res.state, h1, h2, h3, h4, h5]

theorem process_iteration_again_fields (cfg : OrchConfig) (st : OrchState)
    (ts : ℕ) (s : OrchState) :
    process_iteration cfg st ts = .again s →
    s.session = st.session ∧ s.events = st.events ∧
    s.current_question_index = st.current_question_index ∧
    s.current_question = st.current_question := by
  intro h
  unfold process_iteration at h
  split at h
  · cases h
  · cases h
  · rename_i text st1 hlisten
    obtain ⟨h1, h2, h3, h4, h5, h6, h7⟩ := listen_ok_fields _ _ _ hlisten
    split at h
    · cases h
      simp [h1, h2, h3, h4]
    · split at h
      · cases h
        exact ⟨h1, h2, h3, h4⟩
      · cases h
        exact ⟨h1, h2, h3, h4⟩
      · cases h
      · split at h <;> cases h
      · split at h
        · simp only [] at h
          split at h
          · cases h
          · cases h
          · rename_i confirmed st3 heq
            have hc := confirm_answer_fields
              { st1 with current_response_text := some text }
            rw [heq] at hc
            simp [Res.state] at hc
            obtain ⟨hc1, hc2, hc3, hc4, hc5⟩ := hc
            split at h
            · cases h
            · split at h
              · cases h
              · cases h
                exact ⟨hc1.trans h1, hc2.trans h2, hc3.trans h3,
                  hc4.trans h4⟩
        · cases h

theorem process_iteration_exit_fields (cfg : OrchConfig) (st : OrchState)
    (ts : ℕ) (ex : LoopExit) (s : OrchState) :
    process_iteration cfg st ts = .exit ex s →
    s.current_question = st.current_question ∧
    ((ex = LoopExit.fallthrough ∧ s.session = st.session ∧
        s.events = st.events ∧
        s.current_question_index = st.current_question_index) ∨
     (ex = LoopExit.returned ∧ (∃ t, t.skipped = true ∧ t.response = none ∧
        s.session.turns = st.session.turns ++ [t] ∧
        s.session.completed = st.session.completed ∧
        s.events = st.events ++ [SessionEvent.addTurn] ∧
        s.current_question_index = st.current_question_index + 1)) ∨
     (ex = LoopExit.returned ∧ st.current_question = none ∧
        s.session = st.session ∧ s.events = st.events ∧
        s.current_question_index = st.current_question_index + 1) ∨
     (ex = LoopExit.returned ∧ s.session.turns = st.session.turns ∧
        s.session.completed = true ∧
        s.events = st.events ++ [SessionEvent.markCompleted] ∧
        s.current_question_index = st.current_question_index ∧
        s.sm.current_state = ConversationState.complete)) := by
  intro h
  unfold process_iteration at h
  split at h
  · cases h
  · cases h
  · rename_i text st1 hlisten
    obtain ⟨h1, h2, h3, h4, h5, h6, h7⟩ := listen_ok_fields _ _ _ hlisten
    split at h
    · cases h
    · split at h
      · cases h
      · cases h
      · cases h
        unfold skip_question
        split
        · rename_i q hq
          have hst : st.current_question = some q := by rw [← h4]; exact hq
          constructor
          · simp [addTurnT, hst, hq]
          · right; left
            refine ⟨rfl, ⟨q, none, st1.now - ts, true⟩, rfl, rfl, ?_, ?_, ?_, ?_⟩
            · simp [addTurnT, InterviewSession.add_turn, h1]
            · simp [addTurnT, InterviewSession.add_turn, h1]
            · simp [addTurnT, h2]
            · simp [addTurnT, h3]
        · rename_i hq
          have hst : st.current_question = none := by rw [← h4]; exact hq
          constructor
          · simp [hst, hq]
          · right; right; left
            refine ⟨rfl, hst, ?_, ?_, ?_⟩
            · simp [h1]
            · simp [h2]
            · simp [h3]
      · split at h
        · rename_i u s2 heq
          cases h
          obtain ⟨q1, q2, q3, q4, q5, q6⟩ :=
            handle_early_exit_ok_fields _ _ _ heq
          refine ⟨q5.trans h4, ?_⟩
          right; right; right
          exact ⟨rfl, q1.trans (by rw [h1]), q2,
            by rw [q3, h2], q4.trans h3, q6⟩
        · cases h
        · cases h
      · split at h
        · simp only [] at h
          split at h
          · cases h
          · cases h
          · rename_i confirmed st3 heq
            have hc := confirm_answer_fields
              { st1 with current_response_text := some text }
            rw [heq] at hc
            simp [Res.state] at hc
            obtain ⟨hc1, hc2, hc3, hc4, hc5⟩ := hc
            split at h
            · cases h
              refine ⟨hc4.trans h4, ?_⟩
              left
              exact ⟨rfl, hc1.trans h1, hc2.trans h2, hc3.trans h3⟩
            · split at h
              · cases h
                refine ⟨hc4.trans h4, ?_⟩
                left
                exact ⟨rfl, hc1.trans h1, hc2.trans h2, hc3.trans h3⟩
              · cases h
        · cases h
          refine ⟨by simpa using h4, ?_⟩
          left
          refine ⟨rfl, by simpa using h1, by simpa using h2,
            by simpa using h3⟩

theorem process_iteration_exn_fields (cfg : OrchConfig) (st : OrchState)
    (ts : ℕ) (e : PyExn) (s : OrchState) :
    process_iteration cfg st ts = .exn e s →
    s.session.turns = st.session.turns ∧
    s.current_question_index = st.current_question_index ∧
    (s.events = st.events ∨
      (s.events = st.events ++ [SessionEvent.markCompleted] ∧
       s.session.completed = true ∧ ∃ m, e = PyExn.pyError m)) := by
  intro h
  unfold process_iteration at h
  split at h
  · cases h
  · cases h
    rename_i hlisten
    obtain ⟨h1, h2, h3, h4, h5, h6⟩ := listen_exn_fields _ _ _ hlisten
    exact ⟨by rw [h1], h3, Or.inl h2⟩
  · rename_i text st1 hlisten
    obtain ⟨h1, h2, h3, h4, h5, h6, h7⟩ := listen_ok_fields _ _ _ hlisten
    split at h
    · cases h
    · split at h
      · cases h
      · cases h
      · cases h
      · split at h
        · cases h
        · rename_i e2 s2 heq
          cases h
          obtain ⟨q1, q2, q3, q4, q5⟩ := handle_early_exit_exn_fields _ _ _ heq
          exact ⟨q1.trans (by rw [h1]), q4.trans h3,
            Or.inr ⟨by rw [q3, h2], q2, q5⟩⟩
        · cases h
      · split at h
        · simp only [] at h
          split at h
          · cases h
          · rename_i e2 s2 heq
            cases h
            have hc := confirm_answer_fields
              { st1 with current_response_text := some text }
            rw [heq] at hc
            simp [Res.state] at hc
            obtain ⟨hc1, hc2, hc3, hc4, hc5⟩ := hc
            exact ⟨by rw [hc1, h1], hc3.trans h3, Or.inl (hc2.trans h2)⟩
          · split at h
            · cases h
            · split at h <;> cases h
        · cases h

theorem process_iteration_starved_fields (cfg : OrchConfig) (st : OrchState)
    (ts : ℕ) (s : OrchState) :
    process_iteration cfg st ts = .starved s →
    s.session = st.session ∧ s.events = st.events ∧
    s.current_question_index = st.current_question_index ∧
    s.current_question = st.current_question := by
  intro h
  unfold process_iteration at h
  split at h
  · cases h
    rename_i hlisten
    have := listen_starved_eq _ _ hlisten
    rw [this]
    exact ⟨rfl, rfl, rfl, rfl⟩
  · cases h
  · rename_i text st1 hlisten
    obtain ⟨h1, h2, h3, h4, h5, h6, h7⟩ := listen_ok_fields _ _ _ hlisten
    split at h
    · cases h
    · split at h
      · cases h
      · cases h
      · cases h
      · split at h
        · cases h
        · cases h
        · rename_i s2 heq
          exact absurd heq (handle_early_exit_ne_starved _ _)
      · split at h
        · simp only [] at h
          split at h
          · rename_i s2 heq
            cases h
            have hc := confirm_answer_fields
              { st1 with current_response_text := some text }
            rw [heq] at hc
            simp [Res.state] at hc
            obtain ⟨hc1, hc2, hc3, hc4, hc5⟩ := hc
            exact ⟨hc1.trans h1, hc2.trans h2, hc3.trans h3, hc4.trans h4⟩
          · cases h
          · split at h
            · cases h
            · split at h <;> cases h
        · cases h

theorem process_loop_fields (cfg : OrchConfig) (st : OrchState) (ts : ℕ) :
    (∀ s, process_loop cfg st ts = .ok LoopExit.fallthrough s →
      s.session = st.session ∧ s.events = st.events ∧
      s.current_question_index = st.current_question_index ∧
      s.current_question = st.current_question) ∧
    (∀ s, process_loop cfg st ts = .ok LoopExit.returned s →
      s.current_question = st.current_question ∧
      ((∃ t, t.skipped = true ∧ t.response = none ∧
          s.session.turns = st.session.turns ++ [t] ∧
          s.session.completed = st.session.completed ∧
          s.events = st.events ++ [SessionEvent.addTurn] ∧
          s.current_question_index = st.current_question_index + 1) ∨
       (st.current_question = none ∧ s.session = st.session ∧
          s.events = st.events ∧
          s.current_question_index = st.current_question_index + 1) ∨
       (s.session.turns = st.session.turns ∧ s.session.completed = true ∧
          s.events = st.events ++ [SessionEvent.markCompleted] ∧
          s.current_question_index = st.current_question_index ∧
          s.sm.current_state = ConversationState.complete))) ∧
    (∀ e s, process_loop cfg st ts = .exn e s →
      s.session.turns = st.session.turns ∧
      s.current_question_index = st.current_question_index ∧
      (s.events = st.events ∨
        (s.events = st.events ++ [SessionEvent.markCompleted] ∧
         s.session.completed = true ∧ ∃ m, e = PyExn.pyError m))) ∧
    (∀ s, process_loop cfg st ts = .starved s →
      s.session = st.session ∧ s.events = st.events ∧
      s.current_question_index = st.current_question_index ∧
      s.current_question = st.current_question) := by
  induction st, ts using process_loop.induct cfg with
  | case1 st ts hguard s2 hiter ih =>
    rw [process_loop_again cfg st ts s2 hguard hiter]
    obtain ⟨a1, a2, a3, a4⟩ := process_iteration_again_fields cfg st ts s2 hiter
    obtain ⟨ihf, ihr, ihe, ihs⟩ := ih
    refine ⟨?_, ?_, ?_, ?_⟩
    · intro s h
      obtain ⟨b1, b2, b3, b4⟩ := ihf s h
      exact ⟨b1.trans a1, b2.trans a2, b3.trans a3, b4.trans a4⟩
    · intro s h
      obtain ⟨bcq, bdisj⟩ := ihr s h
      refine ⟨bcq.trans a4, ?_⟩
      rcases bdisj with ⟨t, ht1, ht2, ht3, ht4, ht5, ht6⟩ |
          ⟨hn, hs1, hs2, hs3⟩ | ⟨hq1, hq2, hq3, hq4, hq5⟩
      · left
        rw [a1] at ht3 ht4
        rw [a2] at ht5
        rw [a3] at ht6
        exact ⟨t, ht1, ht2, ht3, ht4, ht5, ht6⟩
      · right; left
        rw [a4] at hn
        rw [a1] at hs1
        rw [a2] at hs2
        rw [a3] at hs3
        exact ⟨hn, hs1, hs2, hs3⟩
      · right; right
        rw [a1] at hq1
        rw [a2] at hq3
        rw [a3] at hq4
        exact ⟨hq1, hq2, hq3, hq4, hq5⟩
    · intro e s h
      obtain ⟨b1, b2, b3⟩ := ihe e s h
      rw [a1] at b1
      rw [a3] at b2
      refine ⟨b1, b2, ?_⟩
      rcases b3 with b3 | ⟨b3, b4, b5⟩
      · left
        rw [a2] at b3
        exact b3
      · right
        rw [a2] at b3
        exact ⟨b3, b4, b5⟩
    · intro s h
      obtain ⟨b1, b2, b3, b4⟩ := ihs s h
      exact ⟨b1.trans a1, b2.trans a2, b3.trans a3, b4.trans a4⟩
  | case2 st ts hguard ex2 s2 hiter =>
    rw [process_loop_exit cfg st ts ex2 s2 hguard hiter]
    obtain ⟨icq, idisj⟩ := process_iteration_exit_fields cfg st ts ex2 s2 hiter
    refine ⟨?_, ?_, ?_, ?_⟩
    · intro s h
      cases h
      rcases idisj with ⟨hex, hf1, hf2, hf3⟩ | ⟨hex, _⟩ | ⟨hex, _⟩ | ⟨hex, _⟩
      · exact ⟨hf1, hf2, hf3, icq⟩
      · cases hex
      · cases hex
      · cases hex
    · intro s h
      cases h
      refine ⟨icq, ?_⟩
      rcases idisj with ⟨hex, _⟩ | ⟨hex, hsk⟩ | ⟨hex, hn⟩ | ⟨hex, hq⟩
      · cases hex
      · exact Or.inl hsk
      · exact Or.inr (Or.inl hn)
      · exact Or.inr (Or.inr hq)
    · intro e s h
      cases h
    · intro s h
      cases h
  | case3 st ts hguard e2 s2 hiter =>
    rw [process_loop_exn cfg st ts e2 s2 hguard hiter]
    refine ⟨?_, ?_, ?_, ?_⟩
    · intro s h
      cases h
    · intro s h
      cases h
    · intro e s h
      cases h
      exact process_iteration_exn_fields cfg st ts e2 s2 hiter
    · intro s h
      cases h
  | case4 st ts hguard s2 hiter =>
    rw [process_loop_starved cfg st ts s2 hguard hiter]
    refine ⟨?_, ?_, ?_, ?_⟩
    · intro s h
      cases h
    · intro s h
      cases h
    · intro e s h
      cases h
    · intro s h
      cases h
      exact process_iteration_starved_fields cfg st ts s2 hiter
  | case5 st ts hguard =>
    rw [process_loop_guard_false cfg st ts hguard]
    refine ⟨?_, ?_, ?_, ?_⟩
    · intro s h
      cases h
      exact ⟨rfl, rfl, rfl, rfl⟩
    · intro s h
      cases h
    · intro e s h
      cases h
    · intro s h
      cases h

theorem save_turn_some (st : OrchState) (ts : ℕ) (q : Question)
    (hq : st.current_question = some q) :
    (save_turn st ts).session.turns = st.session.turns ++
      [⟨q, (match st.current_response_text with
            | some t => if t = "" then none
                        else some ⟨t, 9/10, st.retry_count⟩
            | none => none), st.now - ts, false⟩] ∧
    (save_turn st ts).session.completed = st.session.completed ∧
    (save_turn st ts).current_question_index = st.current_question_index ∧
    (save_turn st ts).events = st.events ++ [SessionEvent.addTurn] := by
  unfold save_turn
  rw [hq]
  simp [addTurnT, InterviewSession.add_turn]

/-- C1 (amended): at the start of processing a question the invariant
`len(session.turns) == current_question_index` holds, and processing
appends exactly one turn and advances the index — re-establishing the
invariant — when the question is answered or skipped; a question
abandoned by early exit (QUIT) appends no turn and leaves the index
unchanged while marking the session complete and the machine terminal,
and an abandonment by interruption (a propagating exception) also
appends no turn. -/
theorem process_question_turn_accounting (cfg : OrchConfig) (st : OrchState) :
    (∀ s, process_question cfg st = .ok () s →
      st.session.turns.length = st.current_question_index →
      ((∃ t, s.session.turns = st.session.turns ++ [t] ∧
          s.current_question_index = st.current_question_index + 1 ∧
          s.session.turns.length = s.current_question_index ∧
          s.session.completed = st.session.completed) ∨
       (s.session.turns = st.session.turns ∧
        s.current_question_index = st.current_question_index ∧
        s.session.completed = true ∧ is_terminal s.sm = true))) ∧
    (∀ e s, process_question cfg st = .exn e s →
      s.session.turns = st.session.turns ∧
      s.current_question_index = st.current_question_index) := by
  unfold process_question
  split
  · refine ⟨?_, ?_⟩
    · intro s h
      cases h
    · intro e s h
      cases h
      exact ⟨rfl, rfl⟩
  · rename_i q hq
    simp only []
    split
    · refine ⟨?_, ?_⟩
      · intro s h
        cases h
      · intro e s h
        cases h
    · refine ⟨?_, ?_⟩
      · intro s h
        cases h
      · rename_i e2 s2 heq
        intro e s h
        cases h
        have hf := (process_loop_fields cfg
          { st with current_question := some q, retry_count := 0 } _).2.2.1
          e2 s2 heq
        simpa using ⟨hf.1, hf.2.1⟩
    · rename_i s2 heq
      refine ⟨?_, ?_⟩
      · intro s h
        cases h
        intro hinv
        have hf := (process_loop_fields cfg
          { st with current_question := some q, retry_count := 0 } _).2.1
          s2 heq
        obtain ⟨bcq, bdisj⟩ := hf
        rcases bdisj with ⟨t, ht1, ht2, ht3, ht4, ht5, ht6⟩ |
            ⟨hn, _⟩ | ⟨hq1, hq2, hq3, hq4, hq5⟩
        · left
          refine ⟨t, by simpa using ht3, by simpa using ht6, ?_,
            by simpa using ht4⟩
          have hlen : s2.session.turns.length =
              st.session.turns.length + 1 := by
            have := congrArg List.length ht3
            simpa using this
          have hidx : s2.current_question_index =
              st.current_question_index + 1 := by simpa using ht6
          rw [hlen, hidx, hinv]
        · simp at hn
        · right
          refine ⟨by simpa using hq1, by simpa using hq4, hq2, ?_⟩
          simp [is_terminal, hq5]
      · intro e s h
        cases h
    · rename_i s2 heq
      refine ⟨?_, ?_⟩
      · intro s h
        cases h
        intro hinv
        have hf := (process_loop_fields cfg
          { st with current_question := some q, retry_count := 0 } _).1
          s2 heq
        obtain ⟨f1, f2, f3, f4⟩ := hf
        have hcq : s2.current_question = some q := by simpa using f4
        have hs2sess : s2.session = st.session := by simpa using f1
        have hs2idx : s2.current_question_index = st.current_question_index := by
          simpa using f3
        obtain ⟨sv1, sv2, sv3, sv4⟩ := save_turn_some s2 st.now q hcq
        left
        refine ⟨⟨q, (match s2.current_response_text with
            | some t => if t = "" then none
                        else some ⟨t, 9/10, s2.retry_count⟩
            | none => none), s2.now - st.now, false⟩, ?_, ?_, ?_, ?_⟩
        · show (save_turn s2 st.now).session.turns = _
          rw [sv1, hs2sess]
        · show (save_turn s2 st.now).current_question_index + 1 = _
          rw [sv3, hs2idx]
        · show (save_turn s2 st.now).session.turns.length =
            (save_turn s2 st.now).current_question_index + 1
          rw [sv1, sv3, hs2sess, hs2idx]
          simp [hinv]
        · show (save_turn s2 st.now).session.completed = _
          rw [sv2, hs2sess]
      · intro e s h
        cases h

/-- Witness for C1 at a concrete skipped question: the state machine is
QUESTIONING, one scripted utterance "skip". -/
theorem process_question_turn_accounting_witness :
    (∃ t, ((process_question fixCfg
        (fixQState [ListenEvent.utter "skip"])).state).session.turns =
        (fixQState [ListenEvent.utter "skip"]).session.turns ++ [t] ∧
      ((process_question fixCfg
        (fixQState [ListenEvent.utter "skip"])).state).current_question_index =
        (fixQState [ListenEvent.utter "skip"]).current_question_index + 1 ∧
      ((process_question fixCfg
        (fixQState [ListenEvent.utter "skip"])).state).session.turns.length =
        ((process_question fixCfg
          (fixQState [ListenEvent.utter "skip"])).state).current_question_index ∧
      ((process_question fixCfg
        (fixQState [ListenEvent.utter "skip"])).state).session.completed =
        (fixQState [ListenEvent.utter "skip"]).session.completed) ∨
    (((process_question fixCfg
        (fixQState [ListenEvent.utter "skip"])).state).session.turns =
        (fixQState [ListenEvent.utter "skip"]).session.turns ∧
      ((process_question fixCfg
        (fixQState [ListenEvent.utter "skip"])).state).current_question_index =
        (fixQState [ListenEvent.utter "skip"]).current_question_index ∧
      ((process_question fixCfg
        (fixQState [ListenEvent.utter "skip"])).state).session.completed = true ∧
      is_terminal ((process_question fixCfg
        (fixQState [ListenEvent.utter "skip"])).state).sm = true) :=
  (process_question_turn_accounting fixCfg
      (fixQState [ListenEvent.utter "skip"])).1
    ((process_question fixCfg (fixQState [ListenEvent.utter "skip"])).state)
    (by with_unfolding_all decide) (by with_unfolding_all decide)

set_option maxRecDepth 100000 in
/-- C1 counterexample: a question abandoned by early exit (the utterance
"stop" recognized as QUIT) terminates processing with the session marked
complete but appends no `ConversationTurn` at all for that question
index, contradicting "a turn is appended exactly once per question
index, whether answered, skipped, or abandoned by early exit". -/
theorem process_question_turn_accounting_counterexample :
    (process_question fixCfg (fixQState [ListenEvent.utter "stop"])).isOk =
      true ∧
    ((process_question fixCfg
      (fixQState [ListenEvent.utter "stop"])).state).session.completed =
      true ∧
    ((process_question fixCfg
      (fixQState [ListenEvent.utter "stop"])).state).session.turns = [] ∧
    ((process_question fixCfg
      (fixQState [ListenEvent.utter "stop"])).state).current_question_index =
      0 := by
  with_unfolding_all decide

/-- C4: when confirmation is enabled and an answer attempt's confirmation
is rejected with the retries thereby exhausted, the answer loop breaks
with the captured text still held as the current response, and the turn
subsequently built by `_save_turn` carries a `Response` with exactly that
text and the final retry count — never an absent response. -/
theorem confirm_exhaustion_preserves_answer
    (cfg : OrchConfig) (st : OrchState) (ts : ℕ) (text : String)
    (st1 st3 : OrchState) (q : Question)
    (hconf : cfg.enable_confirmation = true)
    (hguard : st.retry_count < cfg.max_retries)
    (hlisten : listen st = .ok text st1)
    (htext : text ≠ "")
    (hrep : (recognize orchRecognizer text none).1 ≠ UserIntent.repeat)
    (hcla : (recognize orchRecognizer text none).1 ≠ UserIntent.clarify)
    (hskp : (recognize orchRecognizer text none).1 ≠ UserIntent.skip)
    (hqt : (recognize orchRecognizer text none).1 ≠ UserIntent.quit)
    (hcnf : confirm_answer { st1 with current_response_text := some text } =
      .ok false st3)
    (hexh : cfg.max_retries ≤ st3.retry_count)
    (hq : st1.current_question = some q) :
    process_loop cfg st ts = .ok LoopExit.fallthrough st3 ∧
    st3.current_response_text = some text ∧
    (save_turn st3 ts).session.turns = st3.session.turns ++
      [⟨q, some ⟨text, 9/10, st3.retry_count⟩, st3.now - ts, false⟩] := by
  have hcf := confirm_answer_fields
    { st1 with current_response_text := some text }
  rw [hcnf] at hcf
  simp [Res.state] at hcf
  obtain ⟨hcf1, hcf2, hcf3, hcf4, hcf5⟩ := hcf
  have hiter : process_iteration cfg st ts = .exit LoopExit.fallthrough st3 := by
    unfold process_iteration
    split
    · rename_i s0 heq
      rw [hlisten] at heq
      cases heq
    · rename_i e0 s0 heq
      rw [hlisten] at heq
      cases heq
    · rename_i t0 st1x heq
      rw [hlisten] at heq
      cases heq
      rw [if_neg htext]
      split
      · rename_i hx
        exact absurd hx hrep
      · rename_i hx
        exact absurd hx hcla
      · rename_i hx
        exact absurd hx hskp
      · rename_i hx
        exact absurd hx hqt
      · rw [if_pos hconf]
        split
        · rename_i s0 heq2
          rw [hcnf] at heq2
          cases heq2
        · rename_i e0 s0 heq2
          rw [hcnf] at heq2
          cases heq2
        · rename_i b0 s0 heq2
          rw [hcnf] at heq2
          cases heq2
          rw [if_neg (by simp)]
          rw [if_pos hexh]
  refine ⟨process_loop_exit cfg st ts LoopExit.fallthrough st3 hguard hiter,
    hcf5, ?_⟩
  have hq3 : st3.current_question = some q := by rw [hcf4]; exact hq
  obtain ⟨sv1, sv2, sv3, sv4⟩ := save_turn_some st3 ts q hq3
  rw [sv1, hcf5]
  simp [htext]

/-- Witness for C4 at a concrete scenario: one retry, the answer
"I like green tea", confirmation reply "nope". -/
theorem confirm_exhaustion_preserves_answer_witness :
    process_loop c4cfg c4st 0 = .ok LoopExit.fallthrough c4st3 ∧
    c4st3.current_response_text = some "I like green tea" ∧
    (save_turn c4st3 0).session.turns = c4st3.session.turns ++
      [⟨c4q, some ⟨"I like green tea", 9/10, c4st3.retry_count⟩,
        c4st3.now - 0, false⟩] :=
  confirm_exhaustion_preserves_answer c4cfg c4st 0 "I like green tea"
    c4st1 c4st3 c4q rfl (by decide) (by with_unfolding_all decide)
    (by decide) (by with_unfolding_all decide) (by with_unfolding_all decide)
    (by with_unfolding_all decide) (by with_unfolding_all decide)
    (by with_unfolding_all decide) (by decide) rfl

/-! ## Event-order lemmas for the completion claim -/

theorem markFree_append_add (evs : List SessionEvent) (h : markFree evs) :
    markFree (evs ++ [SessionEvent.addTurn]) := by
  simp [markFree] at *
  exact h

theorem markLast_append (evs : List SessionEvent) (h : markFree evs) :
    markLast (evs ++ [SessionEvent.markCompleted]) :=
  ⟨evs, rfl, h⟩

theorem noAddAfterMark_of_markFree :
    ∀ evs, markFree evs → noAddAfterMark evs = true := by
  intro evs
  induction evs with
  | nil => intro _; rfl
  | cons e r ih =>
    intro h
    cases e with
    | addTurn =>
      have hr : markFree r := by
        simp [markFree] at h ⊢
        exact h
      simpa [noAddAfterMark] using ih hr
    | markCompleted =>
      exfalso
      simp [markFree] at h

theorem noAddAfterMark_of_markLast :
    ∀ evs, markLast evs → noAddAfterMark evs = true := by
  intro evs h
  obtain ⟨e1, rfl, hfree⟩ := h
  induction e1 with
  | nil => rfl
  | cons e r ih =>
    cases e with
    | addTurn =>
      have hr : markFree r := by
        simp [markFree] at hfree ⊢
        exact hfree
      simpa [noAddAfterMark] using ih hr
    | markCompleted =>
      exfalso
      simp [markFree] at hfree

theorem transition_from_complete_not_questioning
    (m : ConversationStateMachine)
    (h : m.current_state = ConversationState.complete)
    (m' : ConversationStateMachine) :
    transition_to m ConversationState.questioning ≠ Except.ok m' := by
  unfold transition_to
  rw [if_pos]
  · intro hc
    cases hc
  · simp [is_valid_transition, h, validTransitionTargets]

theorem greeting_loop_listen_starved (st : OrchState) (s : OrchState)
    (h : listen st = .starved s) : greeting_loop st = .starved s := by
  rw [greeting_loop]
  split <;> rename_i heq <;> rw [h] at heq <;> cases heq
  rfl

theorem greeting_loop_listen_exn (st : OrchState) (e : PyExn) (s : OrchState)
    (h : listen st = .exn e s) : greeting_loop st = .exn e s := by
  rw [greeting_loop]
  split <;> rename_i heq <;> rw [h] at heq <;> cases heq
  rfl

theorem greeting_loop_listen_ok (st : OrchState) (t : String) (s1 : OrchState)
    (h : listen st = .ok t s1) :
    greeting_loop st =
      (match (recognize orchRecognizer t (some UserIntent.start)).1 with
       | UserIntent.start => Res.ok () s1
       | UserIntent.quit =>
         (match transition_to (markCompletedT s1).sm
             ConversationState.complete with
          | Except.error m => Res.exn (PyExn.pyError m) (markCompletedT s1)
          | Except.ok sm2 => Res.ok () { markCompletedT s1 with sm := sm2 })
       | _ => greeting_loop s1) := by
  rw [greeting_loop]
  split <;> rename_i heq <;> rw [h] at heq <;> cases heq
  rfl

theorem greeting_loop_events :
    ∀ (n : ℕ) (st : OrchState), st.inputs.length ≤ n → markFree st.events →
    (∀ u s, greeting_loop st = .ok u s →
      s.session.turns = st.session.turns ∧
      (markFree s.events ∨
        (markLast s.events ∧
         s.sm.current_state = ConversationState.complete))) ∧
    (∀ e s, greeting_loop st = .exn e s →
      s.session.turns = st.session.turns ∧
      (markFree s.events ∨
        (markLast s.events ∧ ∃ m, e = PyExn.pyError m))) ∧
    (∀ s, greeting_loop st = .starved s →
      s.session.turns = st.session.turns ∧ markFree s.events) := by
  intro n
  induction n with
  | zero =>
    intro st hle hfree
    have hnil : st.inputs = [] := by
      cases hst : st.inputs with
      | nil => rfl
      | cons a r => rw [hst] at hle; simp at hle
    have hl : listen st = .starved st := by
      unfold listen
      rw [hnil]
    rw [greeting_loop_listen_starved st st hl]
    refine ⟨?_, ?_, ?_⟩
    · intro u s h
      cases h
    · intro e s h
      cases h
    · intro s h
      cases h
      exact ⟨rfl, hfree⟩
  | succ n ih =>
    intro st hle hfree
    match hl : listen st with
    | .starved s0 =>
      rw [greeting_loop_listen_starved st s0 hl]
      have hs0 := listen_starved_eq st s0 hl
      refine ⟨?_, ?_, ?_⟩
      · intro u s h
        cases h
      · intro e s h
        cases h
      · intro s h
        cases h
        rw [hs0]
        exact ⟨rfl, hfree⟩
    | .exn e0 s0 =>
      rw [greeting_loop_listen_exn st e0 s0 hl]
      obtain ⟨f1, f2, f3, f4, f5, f6⟩ := listen_exn_fields st e0 s0 hl
      refine ⟨?_, ?_, ?_⟩
      · intro u s h
        cases h
      · intro e s h
        cases h
        refine ⟨by rw [f1], ?_⟩
        left
        rw [f2]
        exact hfree
      · intro s h
        cases h
    | .ok t s1 =>
      rw [greeting_loop_listen_ok st t s1 hl]
      obtain ⟨f1, f2, f3, f4, f5, f6, f7⟩ := listen_ok_fields st t s1 hl
      have hlen : s1.inputs.length ≤ n := by
        have := listen_ok_inputs_lt st t s1 hl
        omega
      have hfree1 : markFree s1.events := by
        rw [f2]
        exact hfree
      split
      · -- START
        refine ⟨?_, ?_, ?_⟩
        · intro u s h
          cases h
          refine ⟨by rw [f1], Or.inl hfree1⟩
        · intro e s h
          cases h
        · intro s h
          cases h
      · -- QUIT
        split
        · -- transition to COMPLETE failed
          refine ⟨?_, ?_, ?_⟩
          · intro u s h
            cases h
          · intro e s h
            cases h
            refine ⟨?_, ?_⟩
            · simp [markCompletedT, InterviewSession.mark_completed, f1]
            · right
              refine ⟨?_, ⟨_, rfl⟩⟩
              show markLast (markCompletedT s1).events
              simp only [markCompletedT]
              exact markLast_append _ hfree1
          · intro s h
            cases h
        · -- transition to COMPLETE succeeded
          rename_i sm2 htr
          refine ⟨?_, ?_, ?_⟩
          · intro u s h
            cases h
            have hsm := transition_to_ok_eq _ _ _ htr
            refine ⟨?_, ?_⟩
            · simp [markCompletedT, InterviewSession.mark_completed, f1]
            · right
              refine ⟨?_, ?_⟩
              · show markLast { markCompletedT s1 with sm := sm2 }.events
                simp only [markCompletedT]
                exact markLast_append _ hfree1
              · show ConversationStateMachine.current_state _ = _
                rw [hsm]
          · intro e s h
            cases h
          · intro s h
            cases h
      · -- anything else: re-prompt and loop
        have hrec := ih s1 hlen hfree1
        obtain ⟨r1, r2, r3⟩ := hrec
        refine ⟨?_, ?_, ?_⟩
        · intro u s h
          obtain ⟨hturns, hdisj⟩ := r1 u s h
          exact ⟨by rw [hturns, f1], hdisj⟩
        · intro e s h
          obtain ⟨hturns, hdisj⟩ := r2 e s h
          exact ⟨by rw [hturns, f1], hdisj⟩
        · intro s h
          obtain ⟨hturns, hfree2⟩ := r3 s h
          exact ⟨by rw [hturns, f1], hfree2⟩

theorem save_turn_events (st : OrchState) (ts : ℕ) :
    (save_turn st ts).events = st.events ∨
    (save_turn st ts).events = st.events ++ [SessionEvent.addTurn] := by
  unfold save_turn
  split
  · exact Or.inl rfl
  · right
    simp [addTurnT]

theorem process_question_events (cfg : OrchConfig) (st : OrchState)
    (hfree : markFree st.events) :
    (∀ u s, process_question cfg st = .ok u s →
      markFree s.events ∨
        (markLast s.events ∧ is_terminal s.sm = true)) ∧
    (∀ e s, process_question cfg st = .exn e s →
      markFree s.events ∨
        (markLast s.events ∧ ∃ m, e = PyExn.pyError m)) ∧
    (∀ s, process_question cfg st = .starved s → markFree s.events) := by
  refine ⟨?_, ?_, ?_⟩
  · intro u s h
    unfold process_question at h
    split at h
    · cases h
    · rename_i q hq
      simp only [] at h
      split at h
      · cases h
      · cases h
      · cases h
        rename_i s0 heq
        obtain ⟨_, hdisj⟩ := (process_loop_fields cfg _ _).2.1 _ heq
        rcases hdisj with ⟨t, _, _, _, _, hev, _⟩ | ⟨_, _, hev, _⟩ |
            ⟨_, _, hev, _, hsm⟩
        · left
          rw [hev]
          exact markFree_append_add _ hfree
        · left
          rw [hev]
          exact hfree
        · right
          constructor
          · rw [hev]
            exact markLast_append _ hfree
          · simp [is_terminal, hsm]
      · cases h
        rename_i s0 heq
        obtain ⟨_, hev, _, _⟩ := (process_loop_fields cfg _ _).1 s0 heq
        left
        show markFree (save_turn s0 st.now).events
        rcases save_turn_events s0 st.now with hse | hse
        · rw [hse, hev]
          exact hfree
        · rw [hse, hev]
          exact markFree_append_add _ hfree
  · intro e s h
    unfold process_question at h
    split at h
    · cases h
      left
      exact hfree
    · rename_i q hq
      simp only [] at h
      split at h
      · cases h
      · cases h
        rename_i e0 s0 heq
        obtain ⟨_, _, hdisj⟩ := (process_loop_fields cfg _ _).2.2.1 _ _ heq
        rcases hdisj with hev | ⟨hev, _, hm⟩
        · left
          rw [hev]
          exact hfree
        · right
          refine ⟨?_, hm⟩
          rw [hev]
          exact markLast_append _ hfree
      · cases h
      · cases h
  · intro s h
    unfold process_question at h
    split at h
    · cases h
    · rename_i q hq
      simp only [] at h
      split at h
      · cases h
        rename_i s0 heq
        obtain ⟨_, hev, _, _⟩ := (process_loop_fields cfg _ _).2.2.2 _ heq
        rw [hev]
        exact hfree
      · cases h
      · cases h
      · cases h

theorem question_loop_guard_false (cfg : OrchConfig)
    (hmr : 1 ≤ cfg.max_retries) (st : OrchState)
    (h : ¬ st.current_question_index < cfg.questions.length) :
    question_loop cfg hmr st = .ok () st := by
  rw [question_loop, if_neg h]

theorem question_loop_pq_starved (cfg : OrchConfig)
    (hmr : 1 ≤ cfg.max_retries) (st s : OrchState)
    (hlt : st.current_question_index < cfg.questions.length)
    (h : process_question cfg st = .starved s) :
    question_loop cfg hmr st = .starved s := by
  rw [question_loop, if_pos hlt]
  split <;> rename_i heq <;> rw [h] at heq <;> cases heq
  rfl

theorem question_loop_pq_exn (cfg : OrchConfig)
    (hmr : 1 ≤ cfg.max_retries) (st : OrchState) (e : PyExn) (s : OrchState)
    (hlt : st.current_question_index < cfg.questions.length)
    (h : process_question cfg st = .exn e s) :
    question_loop cfg hmr st = .exn e s := by
  rw [question_loop, if_pos hlt]
  split <;> rename_i heq <;> rw [h] at heq <;> cases heq
  rfl

theorem question_loop_pq_ok (cfg : OrchConfig)
    (hmr : 1 ≤ cfg.max_retries) (st : OrchState) (u : Unit) (s : OrchState)
    (hlt : st.current_question_index < cfg.questions.length)
    (h : process_question cfg st = .ok u s) :
    question_loop cfg hmr st =
      (if is_terminal s.sm then .ok () s else question_loop cfg hmr s) := by
  rw [question_loop, if_pos hlt]
  split <;> rename_i heq <;> rw [h] at heq <;> cases heq
  rfl

theorem question_loop_events (cfg : OrchConfig) (hmr : 1 ≤ cfg.max_retries) :
    ∀ (n : ℕ) (st : OrchState), st.inputs.length ≤ n → markFree st.events →
    (∀ u s, question_loop cfg hmr st = .ok u s →
      markFree s.events ∨
        (markLast s.events ∧ is_terminal s.sm = true)) ∧
    (∀ e s, question_loop cfg hmr st = .exn e s →
      markFree s.events ∨
        (markLast s.events ∧ ∃ m, e = PyExn.pyError m)) ∧
    (∀ s, question_loop cfg hmr st = .starved s → markFree s.events) := by
  intro n
  induction n using Nat.strong_induction_on with
  | _ n ih =>
    intro st hle hfree
    by_cases hlt : st.current_question_index < cfg.questions.length
    · match hpq : process_question cfg st with
      | .starved s0 =>
        rw [question_loop_pq_starved cfg hmr st s0 hlt hpq]
        obtain ⟨_, _, r3⟩ := process_question_events cfg st hfree
        refine ⟨?_, ?_, ?_⟩
        · intro u s h
          cases h
        · intro e s h
          cases h
        · intro s h
          cases h
          exact r3 s0 hpq
      | .exn e0 s0 =>
        rw [question_loop_pq_exn cfg hmr st e0 s0 hlt hpq]
        obtain ⟨_, r2, _⟩ := process_question_events cfg st hfree
        refine ⟨?_, ?_, ?_⟩
        · intro u s h
          cases h
        · intro e s h
          cases h
          exact r2 e0 s0 hpq
        · intro s h
          cases h
      | .ok u0 s0 =>
        rw [question_loop_pq_ok cfg hmr st u0 s0 hlt hpq]
        obtain ⟨r1, _, _⟩ := process_question_events cfg st hfree
        rcases r1 u0 s0 hpq with hf | ⟨hml, hterm⟩
        · by_cases ht : is_terminal s0.sm
          · rw [if_pos ht]
            refine ⟨?_, ?_, ?_⟩
            · intro u s h
              cases h
              exact Or.inl hf
            · intro e s h
              cases h
            · intro s h
              cases h
          · rw [if_neg ht]
            have hlen : s0.inputs.length < n :=
              lt_of_lt_of_le
                (process_question_ok_inputs_lt cfg st u0 s0 hmr hpq) hle
            exact ih s0.inputs.length hlen s0 le_rfl hf
        · rw [if_pos hterm]
          refine ⟨?_, ?_, ?_⟩
          · intro u s h
            cases h
            exact Or.inr ⟨hml, hterm⟩
          · intro e s h
            cases h
          · intro s h
            cases h
    · rw [question_loop_guard_false cfg hmr st hlt]
      refine ⟨?_, ?_, ?_⟩
      · intro u s h
        cases h
        exact Or.inl hfree
      · intro e s h
        cases h
      · intro s h
        cases h

theorem handle_exn_noAdd (e : PyExn) (s : OrchState)
    (h : markFree s.events ∨
      (markLast s.events ∧ ∃ m, e = PyExn.pyError m)) :
    noAddAfterMark ((handle_exn e s).state).events = true := by
  cases e with
  | keyboardInterrupt =>
    have hfree : markFree s.events := by
      rcases h with h | ⟨_, m, hm⟩
      · exact h
      · cases hm
    exact noAddAfterMark_of_markLast _ (markLast_append _ hfree)
  | pyError m =>
    rcases h with hf | ⟨hml, _⟩
    · exact noAddAfterMark_of_markFree _ hf
    · exact noAddAfterMark_of_markLast _ hml

/-- C9: once `mark_completed` has been recorded on the session, no further
turn is appended.  Over every configuration and every scripted input
stream, the event trace of a whole `run` never contains an `addTurn`
event after a `markCompleted` event. -/
theorem run_never_appends_after_completion (cfg : OrchConfig)
    (inputs : List ListenEvent) :
    noAddAfterMark ((runOrch cfg inputs).state).events = true := by
  unfold runOrch
  simp only []
  split
  · rename_i hmr
    split
    · rfl
    · split
      · apply handle_exn_noAdd
        left
        simp [markFree]
      · rename_i sm1 htr1
        have hfree0 : markFree ([] : List SessionEvent) := by
          simp [markFree]
        split
        · rename_i s hg
          exact noAddAfterMark_of_markFree _
            ((greeting_loop_events _ _ le_rfl hfree0).2.2 s hg).2
        · rename_i e s hg
          exact handle_exn_noAdd e s
            ((greeting_loop_events _ _ le_rfl hfree0).2.1 e s hg).2
        · rename_i u s2 hg
          obtain ⟨_, hdisj⟩ :=
            (greeting_loop_events _ _ le_rfl hfree0).1 u s2 hg
          split
          · apply handle_exn_noAdd
            rcases hdisj with hf | ⟨hml, _⟩
            · exact Or.inl hf
            · exact Or.inr ⟨hml, _, rfl⟩
          · rename_i smq htrq
            rcases hdisj with hf2 | ⟨_, hcomp⟩
            · split
              · rename_i s hq
                exact noAddAfterMark_of_markFree _
                  ((question_loop_events cfg _ _ { s2 with sm := smq } le_rfl hf2).2.2 s hq)
              · rename_i e s hq
                exact handle_exn_noAdd e s
                  ((question_loop_events cfg _ _ { s2 with sm := smq } le_rfl hf2).2.1 e s hq)
              · rename_i u4 s4 hq
                have hdisj4 :=
                  (question_loop_events cfg _ _ { s2 with sm := smq } le_rfl hf2).1 u4 s4 hq
                split
                · rcases hdisj4 with hf | ⟨hml, _⟩
                  · exact noAddAfterMark_of_markFree _ hf
                  · exact noAddAfterMark_of_markLast _ hml
                · rename_i ht
                  have hf4 : markFree s4.events := by
                    rcases hdisj4 with hf | ⟨_, hterm⟩
                    · exact hf
                    · exact absurd hterm ht
                  split
                  · apply handle_exn_noAdd
                    exact Or.inl hf4
                  · rename_i smc htrc
                    split
                    · apply handle_exn_noAdd
                      exact Or.inl hf4
                    · exact noAddAfterMark_of_markLast _
                        (markLast_append _ hf4)
            · exact absurd htrq
                (transition_from_complete_not_questioning s2.sm hcomp smq)
  · rfl

set_option maxRecDepth 100000 in
/-- C3: refuted as stated — the turn appended after retry exhaustion does
NOT have an absent response.  On the two-question run where question 1 is
answered "My name is Bob" (confirmed) and every listen for question 2
returns empty transcription with `max_retries = 2`, the orchestrator does
append exactly one turn per question and advances, but
`current_response_text` is never reset between questions, so question 2's
turn carries question 1's stale text "My name is Bob" (with
`retry_count = 2`) instead of no response. -/
theorem stale_response_saved_on_exhaustion :
    ((runOrch c3cfg c3inputs).state.session.turns.map
        (fun t => (t.response, t.skipped))) =
      [(some ⟨"My name is Bob", 9/10, 0⟩, false),
       (some ⟨"My name is Bob", 9/10, 2⟩, false)] ∧
    (runOrch c3cfg c3inputs).state.session.completed = true := by
  with_unfolding_all decide

end InterviewAgent
